import Mathlib

/-!
Verification development for the symbol resolution engine of the lld ELF
linker (`SymbolTable.cpp` in the repository source).  The C++ source is
shallowly embedded below: the hash table plus insertion-ordered vector of
`Symbol` slots becomes an association list plus a `List Symbol`, pointer
identity becomes an index into that vector, and the in-place body
replacement (`replaceBody`) becomes assignment of a tagged-union value into
the slot.  Global mutable configuration (`Config`) is threaded explicitly,
and the diagnostic sinks (`error`, `warn`) and the input re-feeding pipeline
(`addFile`) are modelled as event logs carried in the state.
-/

namespace ElfLinker

/-- ELF symbol binding `STB_GLOBAL`. -/
def STB_GLOBAL : Nat := 1

/-- ELF symbol binding `STB_WEAK`. -/
def STB_WEAK : Nat := 2

/-- ELF symbol visibility `STV_DEFAULT`. -/
def STV_DEFAULT : Nat := 0

/-- ELF symbol type `STT_NOTYPE`. -/
def STT_NOTYPE : Nat := 0

/-- ELF symbol type `STT_TLS`. -/
def STT_TLS : Nat := 6

/-- Version index `VER_NDX_LOCAL`. -/
def VER_NDX_LOCAL : Nat := 0

/-- Version index `VER_NDX_GLOBAL`. -/
def VER_NDX_GLOBAL : Nat := 1

/-- Modelled from the spec: `SymbolBody::UnknownType`, the sentinel for a
symbol whose type is not yet settled (spec: lazy bodies carry "the
last-known symbol type"; the TLS check fires only on a "settled
(non-unknown) type").  The numeric sentinel is distinct from every real
ELF symbol type. -/
def unknownType : Nat := 255

/-- Kind of an input file (`InputFile::Kind`). -/
inductive FileKind where
  | object
  | sharedLib
  | bitcode
  | archive
  | lazyObj
  | binary
deriving DecidableEq, Repr

/-- An input file, reduced to an identity and its kind. -/
structure InFile where
  id : Nat
  kind : FileKind
deriving DecidableEq, Repr

/-- An input section (`InputSectionBase`), reduced to an identity and its
owning file (`getFile`). -/
structure InputSec where
  id : Nat
  file : Option InFile
deriving DecidableEq, Repr

/-- The `SymbolBody` variant: the polymorphic payload of a `Symbol` slot.
Constructors mirror the C++ class hierarchy `Undefined`, `DefinedRegular`,
`DefinedCommon`, `DefinedSynthetic`, `SharedSymbol`, `LazyArchive`,
`LazyObject`.  The two lazy bodies additionally carry the deferred input
they can produce on demand (`none` models an empty buffer, i.e. a member
that is already fetched or unavailable). -/
inductive SymbolBody where
  | undefined (name : String) (isLocal : Bool) (stOther type : Nat) (file : Option InFile)
  | regular (name : String) (isLocal : Bool) (stOther type : Nat) (value size : Nat)
      (sec : Option InputSec) (file : Option InFile)
  | common (name : String) (size alignment : Nat) (stOther type : Nat) (file : Option InFile)
  | synthetic (name : String) (value : Nat) (outSec : Option Nat)
  | sharedSym (name : String) (file : InFile) (stOther type : Nat) (verdefIdx : Option Nat)
  | lazyArchive (name : String) (file : InFile) (type : Nat) (memberFile : Option Nat)
  | lazyObject (name : String) (type : Nat) (objFile : Option Nat)
deriving DecidableEq, Repr

namespace SymbolBody

/-- `SymbolBody::getName`. -/
def nameOf : SymbolBody → String
  | undefined n _ _ _ _ => n
  | regular n _ _ _ _ _ _ _ => n
  | common n _ _ _ _ _ => n
  | synthetic n _ _ => n
  | sharedSym n _ _ _ _ => n
  | lazyArchive n _ _ _ => n
  | lazyObject n _ _ => n

/-- The `Type` field of a `SymbolBody`.  A `DefinedSynthetic` is constructed
with `STT_NOTYPE`. -/
def typeOf : SymbolBody → Nat
  | undefined _ _ _ t _ => t
  | regular _ _ _ t _ _ _ _ => t
  | common _ _ _ _ t _ => t
  | synthetic _ _ _ => STT_NOTYPE
  | sharedSym _ _ _ t _ => t
  | lazyArchive _ _ t _ => t
  | lazyObject _ t _ => t

/-- The `File` field of a `SymbolBody` (origin input file, if any). -/
def fileOf : SymbolBody → Option InFile
  | undefined _ _ _ _ f => f
  | regular _ _ _ _ _ _ _ f => f
  | common _ _ _ _ _ f => f
  | synthetic _ _ _ => none
  | sharedSym _ f _ _ _ => some f
  | lazyArchive _ f _ _ => some f
  | lazyObject _ _ _ => none

/-- `SymbolBody::isUndefined`. -/
def isUndefined : SymbolBody → Bool
  | undefined _ _ _ _ _ => true
  | _ => false

/-- `SymbolBody::isLazy`: the body is a `LazyArchive` or `LazyObject`. -/
def isLazy : SymbolBody → Bool
  | lazyArchive _ _ _ _ => true
  | lazyObject _ _ _ => true
  | _ => false

/-- `SymbolBody::isShared`. -/
def isShared : SymbolBody → Bool
  | sharedSym _ _ _ _ _ => true
  | _ => false

/-- `isa<DefinedCommon>`. -/
def isCommonKind : SymbolBody → Bool
  | common _ _ _ _ _ _ => true
  | _ => false

/-- Modelled from the spec: `SymbolBody::isInCurrentDSO` ("locally
defined"), false exactly for bodies that are not real definitions in the
output: undefined references, shared-library stubs and unfetched lazy
promises. -/
def isInCurrentDSO (b : SymbolBody) : Bool :=
  !(b.isUndefined || b.isShared || b.isLazy)

/-- Modelled from the spec: `SymbolBody::isTls`, thread-local-storage-ness
of the body, i.e. its type is `STT_TLS`. -/
def isTls (b : SymbolBody) : Bool := b.typeOf == STT_TLS

end SymbolBody

/-- A `Symbol` slot: the stable per-name identity with its shared
attributes and the replaceable body payload.  `body = none` models the
freshly created slot before any `replaceBody` ran. -/
structure Symbol where
  binding : Nat := STB_WEAK
  visibility : Nat := STV_DEFAULT
  isUsedInRegularObj : Bool := false
  exportDynamic : Bool := false
  traced : Bool := false
  inVersionScript : Bool := false
  versionId : Nat := VER_NDX_GLOBAL
  body : Option SymbolBody := none
deriving DecidableEq, Repr

instance : Inhabited Symbol := ⟨{}⟩

/-- Modelled from the spec: `Symbol::isWeak`, the binding is `STB_WEAK`. -/
def Symbol.isWeak (s : Symbol) : Bool := s.binding == STB_WEAK

/-- One origin named in a duplicate-symbol report: either an input file or
a section-plus-offset location. -/
inductive Origin where
  | file (f : Option InFile)
  | loc (secId off : Nat)
deriving DecidableEq, Repr

/-- Structured diagnostics: what the engine reports (formatting of the
message text is out of scope). -/
inductive Diag where
  | duplicateSymbol (name : String) (oldOrigin newOrigin : Origin)
  | tlsMismatch (name : String) (oldFile newFile : Option InFile)
  | commonOverridden (name : String)
  | multipleCommon (name : String)
  | undefinedVersion (versionName symName : String)
  | duplicateVersionAssign (verName : String)
deriving DecidableEq, Repr

/-- `SymbolTable::SymIndex`: position in the symbol vector (`-1` for a
name registered by `trace` before any symbol exists) plus the traced
flag. -/
structure SymIndex where
  idx : Int
  traced : Bool
deriving DecidableEq, Repr

/-- A version-script entry (`SymbolVersion`): a literal name or glob
pattern, with the `extern C++` and wildcard flags. -/
structure SymbolVersion where
  name : String
  isExternCpp : Bool
  hasWildcard : Bool
deriving DecidableEq, Repr

/-- A version definition (`VersionDefinition`): version name, numeric id
and the list of name patterns assigned to it. -/
structure VersionDefinition where
  name : String
  id : Nat
  globals : List SymbolVersion
deriving DecidableEq, Repr

/-- The link-wide configuration (the C++ global `Config`), threaded
explicitly.  `globMatch pat s` stands for the external `StringMatcher`
glob test and `demangle` for the external demangler, both out of scope
for the core and therefore taken as parameters. -/
structure Config where
  defaultSymbolVersion : Nat := VER_NDX_GLOBAL
  allowMultipleDefinition : Bool := false
  warnCommon : Bool := false
  shared : Bool := false
  exportDynamic : Bool := false
  noUndefinedVersion : Bool := false
  versionDefinitions : List VersionDefinition := []
  versionScriptGlobals : List SymbolVersion := []
  versionScriptLocals : List SymbolVersion := []
  globMatch : String → String → Bool := fun _ _ => false
  demangle : String → Option String := fun _ => none

/-- The whole mutable state of the symbol table: the name-keyed index
map, the insertion-ordered symbol vector, the two diagnostic sinks, the
log of inputs fed back into the pipeline by lazy fetches (`addFile`),
and the log of shared files marked `IsUsed`. -/
structure LinkState where
  symtab : List (String × SymIndex) := []
  symVector : List Symbol := []
  errors : List Diag := []
  warnings : List Diag := []
  fetched : List Nat := []
  sharedUsed : List Nat := []
deriving DecidableEq, Repr

namespace LinkState

/-- Dereference a slot index (pointer dereference in C++). -/
def get (st : LinkState) (i : Nat) : Symbol := st.symVector.getD i default

/-- Overwrite a slot in place (mutation through the pointer in C++). -/
def setSym (st : LinkState) (i : Nat) (s : Symbol) : LinkState :=
  { st with symVector := st.symVector.set i s }

/-- Record a hard error (`error(...)`). -/
def addError (st : LinkState) (d : Diag) : LinkState :=
  { st with errors := st.errors ++ [d] }

/-- Record a warning (`warn(...)`). -/
def addWarning (st : LinkState) (d : Diag) : LinkState :=
  { st with warnings := st.warnings ++ [d] }

/-- Modelled from the spec: `addFile` re-feeds a fetched input through the
input pipeline; parsing of that input is an external collaborator, so the
model records the file in the fetched-input log. -/
def addFetched (st : LinkState) (f : Nat) : LinkState :=
  { st with fetched := st.fetched ++ [f] }

/-- Mark a shared file as used (`SharedFile::IsUsed = true`). -/
def markSharedUsed (st : LinkState) (f : Nat) : LinkState :=
  { st with sharedUsed := st.sharedUsed ++ [f] }

/-- Hash-table lookup of a name (`Symtab.find`). -/
def lookupName (st : LinkState) (name : String) : Option SymIndex :=
  (st.symtab.find? (fun p => p.1 == name)).map (·.2)

/-- Index of the live slot for a name, if any (`-1` trace entries and
absent names both give `none`). -/
def findIdx (st : LinkState) (name : String) : Option Nat :=
  match st.lookupName name with
  | none => none
  | some v => if v.idx < 0 then none else some v.idx.toNat

end LinkState

/-- Replace the `SymIndex` stored for a name already present in the map
(in C++ this is mutation of the map entry through the reference `V`). -/
def replaceEntry (l : List (String × SymIndex)) (name : String) (v : SymIndex) :
    List (String × SymIndex) :=
  l.map (fun p => if p.1 == name then (p.1, v) else p)

/-- The fresh slot created by `insert(StringRef)`: weak binding, default
visibility, the configured default version id, and no body yet. -/
def freshSymbol (cfg : Config) (traced : Bool) : Symbol :=
  { binding := STB_WEAK
    visibility := STV_DEFAULT
    isUsedInRegularObj := false
    exportDynamic := false
    traced := traced
    inVersionScript := false
    versionId := cfg.defaultSymbolVersion
    body := none }

/-- `SymbolTable::insert(StringRef)`: find an existing slot or create and
insert a new one.  Returns the slot index, the `was_new` flag and the
updated state. -/
def insertName (cfg : Config) (st : LinkState) (name : String) :
    Nat × Bool × LinkState :=
  match st.lookupName name with
  | none =>
      (st.symVector.length, true,
        { st with
          symtab := st.symtab ++ [(name, ⟨(st.symVector.length : Int), false⟩)]
          symVector := st.symVector ++ [freshSymbol cfg false] })
  | some v =>
      if v.idx < 0 then
        (st.symVector.length, true,
          { st with
            symtab := replaceEntry st.symtab name ⟨(st.symVector.length : Int), true⟩
            symVector := st.symVector ++ [freshSymbol cfg true] })
      else (v.idx.toNat, false, st)

/-- `SymbolTable::trace`: pre-register a name with index `-1` and the
traced flag; a no-op if the name is already present (`DenseMap::insert`
does not overwrite). -/
def traceName (st : LinkState) (name : String) : LinkState :=
  match st.lookupName name with
  | none => { st with symtab := st.symtab ++ [(name, ⟨-1, true⟩)] }
  | some _ => st

/-- `getMinVisibility`: most-restrictive-wins merge of two visibilities,
with `STV_DEFAULT` as the neutral element. -/
def getMinVisibility (va vb : Nat) : Nat :=
  if va = STV_DEFAULT then vb
  else if vb = STV_DEFAULT then va
  else min va vb

/-- `getVisibility(StOther)` = `StOther & 3`. -/
def getVisibility (stOther : Nat) : Nat := stOther % 4

/-- The `IsUsedInRegularObj` test of the five-argument `insert`:
`!File || File->kind() == InputFile::ObjectKind`. -/
def usedInRegularObjOf (file : Option InFile) : Bool :=
  match file with
  | none => true
  | some f => f.kind == FileKind.object

/-- The attribute-merging statements of the five-argument `insert`:
visibility becomes the most restrictive of old and new, the
export-to-dynamic flag is set if requested and not omittable, and the
used-in-regular-object flag is OR'd in. -/
def mergeAttrs (cfg : Config) (visibility : Nat)
    (canOmitFromDynSym usedInRegularObj : Bool) (s : Symbol) : Symbol :=
  let s1 := { s with visibility := getMinVisibility s.visibility visibility }
  let s2 := if !canOmitFromDynSym && (cfg.shared || cfg.exportDynamic) then
      { s1 with exportDynamic := true } else s1
  if usedInRegularObj then { s2 with isUsedInRegularObj := true } else s2

/-- The TLS-mismatch check of the five-argument `insert`: when the slot is
not newly inserted and the resolved body has a settled type, a
contribution flipping thread-local-storage-ness is a hard error. -/
def tlsCheck (st : LinkState) (wasNew : Bool) (s : Symbol) (type : Nat)
    (file : Option InFile) : LinkState :=
  if !wasNew then
    match s.body with
    | some b =>
        if b.typeOf != unknownType && ((type == STT_TLS) != b.isTls) then
          st.addError (Diag.tlsMismatch b.nameOf b.fileOf file)
        else st
    | none => st
  else st

/-- `SymbolTable::insert(StringRef, Type, Visibility, CanOmitFromDynSym,
File)`: find or create the slot, merge the shared attributes (visibility,
export-to-dynamic, used-in-regular-object) and run the TLS-mismatch
check. -/
def insertAttrs (cfg : Config) (st : LinkState) (name : String)
    (type visibility : Nat) (canOmitFromDynSym : Bool) (file : Option InFile) :
    Nat × Bool × LinkState :=
  let r := insertName cfg st name
  let i := r.1
  let wasNew := r.2.1
  let st1 := r.2.2
  let s3 := mergeAttrs cfg visibility canOmitFromDynSym (usedInRegularObjOf file) (st1.get i)
  let st2 := st1.setSym i s3
  (i, wasNew, tlsCheck st2 wasNew s3 type file)

/-- `compareDefined(S, WasInserted, Binding)`: 1 = the new defined symbol
wins, -1 = it loses, 0 = both are strong real definitions.  A slot with no
body yet behaves like one that is not locally defined (unreachable in
practice: every public operation installs a body before returning). -/
def compareDefined (s : Symbol) (wasInserted : Bool) (binding : Nat) : Int :=
  if wasInserted then 1
  else
    match s.body with
    | none => 1
    | some b =>
        if b.isLazy || !b.isInCurrentDSO then 1
        else if binding == STB_WEAK then -1
        else if s.isWeak then 1
        else 0

/-- `compareDefinedNonCommon(S, WasInserted, Binding, IsAbsolute, Value)`:
the non-common comparator.  Also performs the side effects of the C++
function: updating the slot's binding when the base rule decides a win,
and the "common overridden" warning on the common downgrade.  Returns the
decision and the updated state. -/
def compareDefinedNonCommon (cfg : Config) (st : LinkState) (i : Nat)
    (wasInserted : Bool) (binding : Nat) (isAbsolute : Bool) (value : Nat) :
    Int × LinkState :=
  let s := st.get i
  let cmp := compareDefined s wasInserted binding
  if cmp ≠ 0 then
    (cmp, if cmp > 0 then st.setSym i { s with binding := binding } else st)
  else
    match s.body with
    | some (SymbolBody.common n _ _ _ _ _) =>
        (1, if cfg.warnCommon then st.addWarning (Diag.commonOverridden n) else st)
    | some (SymbolBody.regular _ _ _ _ rvalue _ rsec _) =>
        if rsec = none ∧ binding = STB_GLOBAL ∧ isAbsolute = true ∧ rvalue = value then
          (-1, st)
        else (0, st)
    | _ => (0, st)

/-- `print(Msg)`: a warning in allow-multiple-definitions mode, otherwise
a hard error. -/
def printDiag (cfg : Config) (st : LinkState) (d : Diag) : LinkState :=
  if cfg.allowMultipleDefinition then st.addWarning d else st.addError d

/-- `reportDuplicate(Existing, NewFile)`: duplicate-symbol report naming
both origin files. -/
def reportDuplicateFile (cfg : Config) (st : LinkState) (existing : SymbolBody)
    (newFile : Option InFile) : LinkState :=
  printDiag cfg st
    (Diag.duplicateSymbol existing.nameOf (Origin.file existing.fileOf) (Origin.file newFile))

/-- `reportDuplicate<ELFT>(Existing, ErrSec, ErrOffset)`: duplicate-symbol
report naming both section-plus-offset locations when available, else
falling back to the file-level report. -/
def reportDuplicateSec (cfg : Config) (st : LinkState) (existing : SymbolBody)
    (errSec : Option InputSec) (errOffset : Nat) : LinkState :=
  match existing, errSec with
  | SymbolBody.regular n _ _ _ v _ (some dsec) _, some es =>
      printDiag cfg st (Diag.duplicateSymbol n (Origin.loc dsec.id v) (Origin.loc es.id errOffset))
  | b, es => reportDuplicateFile cfg st b (es.bind (·.file))

/-- `SymbolTable::addUndefined(Name, IsLocal, Binding, StOther, Type,
CanOmitFromDynSym, File)`: an undefined reference contribution.  A strong
reference re-binds a shared or lazy slot and, on a lazy slot, fetches the
deferred input; a weak reference on a lazy slot only re-records the type.
Returns the slot index and the new state. -/
def addUndefined (cfg : Config) (st : LinkState) (name : String) (isLocal : Bool)
    (binding stOther type : Nat) (canOmitFromDynSym : Bool) (file : Option InFile) :
    Nat × LinkState :=
  let r := insertAttrs cfg st name type (getVisibility stOther) canOmitFromDynSym file
  let i := r.1
  let wasNew := r.2.1
  let st := r.2.2
  if wasNew then
    (i, st.setSym i { st.get i with
        binding := binding
        body := some (SymbolBody.undefined name isLocal stOther type file) })
  else
    let st :=
      if binding != STB_WEAK then
        let s := st.get i
        match s.body with
        | some b =>
            let st := if b.isShared || b.isLazy then st.setSym i { s with binding := binding }
              else st
            match b with
            | SymbolBody.sharedSym _ f _ _ _ => st.markSharedUsed f.id
            | _ => st
        | none => st
      else st
    let s := st.get i
    match s.body with
    | some (SymbolBody.lazyArchive n f _ m) =>
        if s.isWeak then
          (i, st.setSym i { s with body := some (SymbolBody.lazyArchive n f type m) })
        else
          match m with
          | some mf => (i, st.addFetched mf)
          | none => (i, st)
    | some (SymbolBody.lazyObject n _ o) =>
        if s.isWeak then
          (i, st.setSym i { s with body := some (SymbolBody.lazyObject n type o) })
        else
          match o with
          | some f => (i, st.addFetched f)
          | none => (i, st)
    | _ => (i, st)

/-- `SymbolTable::addUndefined(Name)`: the one-argument form, a strong
global untyped undefined reference with no file. -/
def addUndefined1 (cfg : Config) (st : LinkState) (name : String) : Nat × LinkState :=
  addUndefined cfg st name false STB_GLOBAL STV_DEFAULT 0 false none

/-- `SymbolTable::addCommon(N, Size, Alignment, Binding, StOther, Type,
File)`: a common-symbol contribution, with the size/alignment ratchet on
the common-vs-common conflict. -/
def addCommon (cfg : Config) (st : LinkState) (name : String)
    (size alignment binding stOther type : Nat) (file : Option InFile) :
    Nat × LinkState :=
  let r := insertAttrs cfg st name type (getVisibility stOther) false file
  let i := r.1
  let wasNew := r.2.1
  let st := r.2.2
  let cmp := compareDefined (st.get i) wasNew binding
  if cmp > 0 then
    (i, st.setSym i { st.get i with
        binding := binding
        body := some (SymbolBody.common name size alignment stOther type file) })
  else if cmp = 0 then
    match (st.get i).body with
    | some (SymbolBody.common n csize calign cso ct cf) =>
        let st := if cfg.warnCommon then st.addWarning (Diag.multipleCommon n) else st
        let newAlign := max calign alignment
        let st := st.setSym i { st.get i with
            body := some (SymbolBody.common n csize newAlign cso ct cf) }
        if size > csize then
          (i, st.setSym i { st.get i with
              body := some (SymbolBody.common name size newAlign stOther type file) })
        else (i, st)
    | some b =>
        (i, if cfg.warnCommon then st.addWarning (Diag.commonOverridden b.nameOf) else st)
    | none => (i, st)
  else (i, st)

/-- `SymbolTable::addRegular(Name, StOther, Type, Value, Size, Binding,
Section, File)`: a regular defined-symbol contribution. -/
def addRegular (cfg : Config) (st : LinkState) (name : String)
    (stOther type value size binding : Nat) (sec : Option InputSec)
    (file : Option InFile) : Nat × LinkState :=
  let r := insertAttrs cfg st name type (getVisibility stOther) false file
  let i := r.1
  let wasNew := r.2.1
  let st := r.2.2
  let c := compareDefinedNonCommon cfg st i wasNew binding sec.isNone value
  let cmp := c.1
  let st := c.2
  if cmp > 0 then
    (i, st.setSym i { st.get i with
        body := some (SymbolBody.regular name false stOther type value size sec file) })
  else if cmp = 0 then
    match (st.get i).body with
    | some b => (i, reportDuplicateSec cfg st b sec value)
    | none => (i, st)
  else (i, st)

/-- `SymbolTable::addSynthetic(N, Section, Value, StOther)`: a
linker-synthesized defined-symbol contribution. -/
def addSynthetic (cfg : Config) (st : LinkState) (name : String)
    (outSec : Option Nat) (value stOther : Nat) : Nat × LinkState :=
  let r := insertAttrs cfg st name STT_NOTYPE (getVisibility stOther) false none
  let i := r.1
  let wasNew := r.2.1
  let st := r.2.2
  let c := compareDefinedNonCommon cfg st i wasNew STB_GLOBAL false 0
  let cmp := c.1
  let st := c.2
  if cmp > 0 then
    (i, st.setSym i { st.get i with
        body := some (SymbolBody.synthetic name value outSec) })
  else if cmp = 0 then
    match (st.get i).body with
    | some b => (i, reportDuplicateFile cfg st b none)
    | none => (i, st)
  else (i, st)

/-- `SymbolTable::addBitcode(Name, Binding, StOther, Type,
CanOmitFromDynSym, F)`: a provisional bitcode-defined contribution; wins
install a section-less `DefinedRegular` owned by the bitcode file. -/
def addBitcode (cfg : Config) (st : LinkState) (name : String)
    (binding stOther type : Nat) (canOmitFromDynSym : Bool) (f : InFile) :
    Nat × LinkState :=
  let r := insertAttrs cfg st name type (getVisibility stOther) canOmitFromDynSym (some f)
  let i := r.1
  let wasNew := r.2.1
  let st := r.2.2
  let c := compareDefinedNonCommon cfg st i wasNew binding false 0
  let cmp := c.1
  let st := c.2
  if cmp > 0 then
    (i, st.setSym i { st.get i with
        body := some (SymbolBody.regular name false stOther type 0 0 none (some f)) })
  else if cmp = 0 then
    match (st.get i).body with
    | some b => (i, reportDuplicateFile cfg st b (some f))
    | none => (i, st)
  else (i, st)

/-- `SymbolTable::addShared(File, Name, Sym, Verdef)`: a shared-library
export.  `symStOther`/`symType` are the incoming `Elf_Sym` fields
(`Sym.getVisibility()` is the low two bits of `st_other`). -/
def addShared (cfg : Config) (st : LinkState) (file : InFile) (name : String)
    (symStOther symType : Nat) (verdefIdx : Option Nat) : LinkState :=
  let r := insertAttrs cfg st name symType STV_DEFAULT true (some file)
  let i := r.1
  let wasNew := r.2.1
  let st := r.2.2
  let st := if getVisibility symStOther = STV_DEFAULT then
      st.setSym i { st.get i with exportDynamic := true }
    else st
  let s := st.get i
  if wasNew || (s.body.map SymbolBody.isUndefined).getD false then
    let st := st.setSym i { s with
        body := some (SymbolBody.sharedSym name file symStOther symType verdefIdx) }
    if (st.get i).isWeak then st else st.markSharedUsed file.id
  else st

/-- `SymbolTable::addLazyArchive(F, Sym)`: a deferred archive-member
contribution.  `memberFile` is the input the member would produce on
fetch (`none` models `getMember` returning an empty buffer). -/
def addLazyArchive (cfg : Config) (st : LinkState) (f : InFile) (symName : String)
    (memberFile : Option Nat) : LinkState :=
  let r := insertName cfg st symName
  let i := r.1
  let wasNew := r.2.1
  let st := r.2.2
  if wasNew then
    st.setSym i { st.get i with
        body := some (SymbolBody.lazyArchive symName f unknownType memberFile) }
  else
    let s := st.get i
    match s.body with
    | some b =>
        if !b.isUndefined then st
        else if s.isWeak then
          st.setSym i { s with
              body := some (SymbolBody.lazyArchive symName f b.typeOf memberFile) }
        else
          match memberFile with
          | some m => st.addFetched m
          | none => st
    | none => st

/-- `SymbolTable::addLazyObject(Name, Obj)`: a deferred lazy-object-file
contribution.  `objFile` is the input its buffer would produce on fetch
(`none` models an empty buffer). -/
def addLazyObject (cfg : Config) (st : LinkState) (name : String)
    (objFile : Option Nat) : LinkState :=
  let r := insertName cfg st name
  let i := r.1
  let wasNew := r.2.1
  let st := r.2.2
  if wasNew then
    st.setSym i { st.get i with
        body := some (SymbolBody.lazyObject name unknownType objFile) }
  else
    let s := st.get i
    match s.body with
    | some b =>
        if !b.isUndefined then st
        else if s.isWeak then
          st.setSym i { s with body := some (SymbolBody.lazyObject name b.typeOf objFile) }
        else
          match objFile with
          | some m => st.addFetched m
          | none => st
    | none => st

/-- `SymbolTable::wrap(Name)`: split the symbol into `__real_<name>`
(taking over the pre-existing body) and `__wrap_<name>` (whose body the
original slot receives).  The body copies are the two `memcpy` calls on
the body buffers. -/
def wrap (cfg : Config) (st : LinkState) (name : String) : LinkState :=
  match st.findIdx name with
  | none => st
  | some iSym =>
      let r1 := addUndefined1 cfg st ("__real_" ++ name)
      let iReal := r1.1
      let r2 := addUndefined1 cfg r1.2 ("__wrap_" ++ name)
      let iWrap := r2.1
      let st := r2.2
      let symBody := (st.get iSym).body
      let wrapBody := (st.get iWrap).body
      let st := st.setSym iReal { st.get iReal with body := symBody }
      st.setSym iSym { st.get iSym with body := wrapBody }

/-- `SymbolTable::find(Name)`: non-creating lookup of the resolved body. -/
def findBody (st : LinkState) (name : String) : Option SymbolBody :=
  match st.findIdx name with
  | none => none
  | some i => (st.get i).body

/-- The demangled key a body is indexed under in `getDemangledSyms`: its
demangled name when it demangles, else the literal name.  `demangle` is
the external demangler carried in the configuration. -/
def demangledKey (cfg : Config) (b : SymbolBody) : String :=
  (cfg.demangle b.nameOf).getD b.nameOf

/-- Does the slot at this index hold a defined (non-undefined) body whose
version-script key satisfies `p`?  Shared filter of `findByVersion` /
`findAllByVersion`. -/
def matchesBody (st : LinkState) (i : Nat) (p : SymbolBody → Bool) : Bool :=
  match (st.get i).body with
  | some b => !b.isUndefined && p b
  | none => false

/-- `SymbolTable::findByVersion(Ver)`: slots receiving an exact-name
assignment — the literal-name lookup, or all slots with a matching
demangled name for an `extern C++` entry. -/
def findByVersion (cfg : Config) (st : LinkState) (ver : SymbolVersion) : List Nat :=
  if ver.isExternCpp then
    (List.range st.symVector.length).filter
      (fun i => matchesBody st i (fun b => demangledKey cfg b == ver.name))
  else
    match st.findIdx ver.name with
    | some i =>
        match (st.get i).body with
        | some b => if !b.isUndefined then [i] else []
        | none => []
    | none => []

/-- `SymbolTable::findAllByVersion(Ver)`: all slots whose (possibly
demangled) name matches the glob pattern, in insertion order. -/
def findAllByVersion (cfg : Config) (st : LinkState) (ver : SymbolVersion) : List Nat :=
  if ver.isExternCpp then
    (List.range st.symVector.length).filter
      (fun i => matchesBody st i (fun b => cfg.globMatch ver.name (demangledKey cfg b)))
  else
    (List.range st.symVector.length).filter
      (fun i => matchesBody st i (fun b => cfg.globMatch ver.name b.nameOf))

/-- The per-slot step of `assignExactVersion`: warn on a duplicate
version-script assignment, then stamp the version id. -/
def stampExactVersion (st : LinkState) (i : Nat) (versionId : Nat)
    (verName : String) : LinkState :=
  let st := if (st.get i).inVersionScript then
      st.addWarning (Diag.duplicateVersionAssign verName)
    else st
  st.setSym i { st.get i with versionId := versionId, inVersionScript := true }

/-- `SymbolTable::assignExactVersion(Ver, VersionId, VersionName)`. -/
def assignExactVersion (cfg : Config) (st : LinkState) (ver : SymbolVersion)
    (versionId : Nat) (versionName : String) : LinkState :=
  if ver.hasWildcard then st
  else
    let syms := findByVersion cfg st ver
    if syms.isEmpty then
      if cfg.noUndefinedVersion then
        st.addError (Diag.undefinedVersion versionName ver.name)
      else st
    else
      syms.foldl (fun st i => stampExactVersion st i versionId ver.name) st

/-- The per-slot step of `assignWildcardVersion`: stamp the version id
only when the slot's version is still the configured default. -/
def stampWildcardVersion (cfg : Config) (st : LinkState) (i : Nat)
    (versionId : Nat) : LinkState :=
  if (st.get i).versionId = cfg.defaultSymbolVersion then
    st.setSym i { st.get i with versionId := versionId }
  else st

/-- `SymbolTable::assignWildcardVersion(Ver, VersionId)`. -/
def assignWildcardVersion (cfg : Config) (st : LinkState) (ver : SymbolVersion)
    (versionId : Nat) : LinkState :=
  if !ver.hasWildcard then st
  else (findAllByVersion cfg st ver).foldl
    (fun st i => stampWildcardVersion cfg st i versionId) st

/-- `SymbolTable::handleAnonymousVersion`: the anonymous version block's
global and local lists, exact entries before wildcard entries. -/
def handleAnonymousVersion (cfg : Config) (st : LinkState) : LinkState :=
  let st := cfg.versionScriptGlobals.foldl
    (fun st v => assignExactVersion cfg st v VER_NDX_GLOBAL "global") st
  let st := cfg.versionScriptGlobals.foldl
    (fun st v => assignWildcardVersion cfg st v VER_NDX_GLOBAL) st
  let st := cfg.versionScriptLocals.foldl
    (fun st v => assignExactVersion cfg st v VER_NDX_LOCAL "local") st
  cfg.versionScriptLocals.foldl
    (fun st v => assignWildcardVersion cfg st v VER_NDX_LOCAL) st

/-- The exact-name phase of `scanVersionScript`: every version
definition's entries, in declaration order. -/
def exactVersionPhase (cfg : Config) (st : LinkState) : LinkState :=
  cfg.versionDefinitions.foldl
    (fun st v => v.globals.foldl
      (fun st ver => assignExactVersion cfg st ver v.id v.name) st) st

/-- The wildcard phase of `scanVersionScript`: version definitions are
visited in reverse declaration order so that the last-declared matching
wildcard wins. -/
def wildcardVersionPhase (cfg : Config) (st : LinkState) : LinkState :=
  cfg.versionDefinitions.reverse.foldl
    (fun st v => v.globals.foldl
      (fun st ver => assignWildcardVersion cfg st ver v.id) st) st

/-- Modelled from the spec: `SymbolBody::parseSymbolVersion` handles
`<name>@<version>` suffixes embedded in symbol names, which the spec's
versioning subsystem does not cover (it is external to the resolution
core); modelled as the identity pass. -/
def parseSymbolVersionPass (st : LinkState) : LinkState := st

/-- `SymbolTable::scanVersionScript`: parse embedded versions, handle the
anonymous version block, then the exact-name phase followed by the
wildcard phase. -/
def scanVersionScript (cfg : Config) (st : LinkState) : LinkState :=
  let st := if cfg.versionDefinitions.isEmpty then st else parseSymbolVersionPass st
  let st := handleAnonymousVersion cfg st
  if cfg.versionDefinitions.isEmpty then st
  else wildcardVersionPhase cfg (exactVersionPhase cfg st)

/-! ### Auxiliary list and state lemmas -/

theorem getD_append_length {α} (l : List α) (a d : α) :
    (l ++ [a]).getD l.length d = a := by
  simp [List.getD_append_right]

theorem set_append_length {α} (l : List α) (a b : α) :
    (l ++ [a]).set l.length b = l ++ [b] := by
  induction l with
  | nil => rfl
  | cons x xs ih => simp [List.set, ih]

theorem getD_set_self {α} (l : List α) (i : Nat) (a d : α) (h : i < l.length) :
    (l.set i a).getD i d = a := by
  simp [List.getD, List.getElem?_set_self', h]

theorem getD_set_ne {α} (l : List α) (i j : Nat) (a d : α) (h : i ≠ j) :
    (l.set i a).getD j d = l.getD j d := by
  simp [List.getD, List.getElem?_set_ne h]

theorem LinkState.get_setSym_self (st : LinkState) (i : Nat) (s : Symbol)
    (h : i < st.symVector.length) : (st.setSym i s).get i = s := by
  unfold LinkState.get LinkState.setSym
  exact getD_set_self _ _ _ _ h

theorem LinkState.get_setSym_ne (st : LinkState) (i j : Nat) (s : Symbol)
    (h : i ≠ j) : (st.setSym i s).get j = st.get j := by
  unfold LinkState.get LinkState.setSym
  exact getD_set_ne _ _ _ _ _ h

theorem LinkState.length_setSym (st : LinkState) (i : Nat) (s : Symbol) :
    (st.setSym i s).symVector.length = st.symVector.length := by
  simp [LinkState.setSym]

@[simp] theorem LinkState.lookupName_setSym (st : LinkState) (i : Nat) (s : Symbol)
    (n : String) : (st.setSym i s).lookupName n = st.lookupName n := rfl

@[simp] theorem LinkState.symtab_setSym (st : LinkState) (i : Nat) (s : Symbol) :
    (st.setSym i s).symtab = st.symtab := rfl

@[simp] theorem LinkState.errors_setSym (st : LinkState) (i : Nat) (s : Symbol) :
    (st.setSym i s).errors = st.errors := rfl

@[simp] theorem LinkState.warnings_setSym (st : LinkState) (i : Nat) (s : Symbol) :
    (st.setSym i s).warnings = st.warnings := rfl

@[simp] theorem LinkState.fetched_setSym (st : LinkState) (i : Nat) (s : Symbol) :
    (st.setSym i s).fetched = st.fetched := rfl

@[simp] theorem LinkState.sharedUsed_setSym (st : LinkState) (i : Nat) (s : Symbol) :
    (st.setSym i s).sharedUsed = st.sharedUsed := rfl

@[simp] theorem LinkState.get_addError (st : LinkState) (d : Diag) (i : Nat) :
    (st.addError d).get i = st.get i := rfl

@[simp] theorem LinkState.get_addWarning (st : LinkState) (d : Diag) (i : Nat) :
    (st.addWarning d).get i = st.get i := rfl

@[simp] theorem LinkState.get_addFetched (st : LinkState) (f : Nat) (i : Nat) :
    (st.addFetched f).get i = st.get i := rfl

@[simp] theorem LinkState.lookupName_addError (st : LinkState) (d : Diag) (n : String) :
    (st.addError d).lookupName n = st.lookupName n := rfl

@[simp] theorem LinkState.lookupName_addWarning (st : LinkState) (d : Diag) (n : String) :
    (st.addWarning d).lookupName n = st.lookupName n := rfl

@[simp] theorem LinkState.length_addError (st : LinkState) (d : Diag) :
    (st.addError d).symVector.length = st.symVector.length := rfl

@[simp] theorem LinkState.length_addWarning (st : LinkState) (d : Diag) :
    (st.addWarning d).symVector.length = st.symVector.length := rfl

@[simp] theorem LinkState.warnings_addError (st : LinkState) (d : Diag) :
    (st.addError d).warnings = st.warnings := rfl

@[simp] theorem LinkState.errors_addWarning (st : LinkState) (d : Diag) :
    (st.addWarning d).errors = st.errors := rfl

@[simp] theorem LinkState.fetched_addError (st : LinkState) (d : Diag) :
    (st.addError d).fetched = st.fetched := rfl

@[simp] theorem LinkState.fetched_addWarning (st : LinkState) (d : Diag) :
    (st.addWarning d).fetched = st.fetched := rfl

@[simp] theorem LinkState.errors_addFetched (st : LinkState) (f : Nat) :
    (st.addFetched f).errors = st.errors := rfl

@[simp] theorem LinkState.errors_markSharedUsed (st : LinkState) (f : Nat) :
    (st.markSharedUsed f).errors = st.errors := rfl

@[simp] theorem LinkState.fetched_markSharedUsed (st : LinkState) (f : Nat) :
    (st.markSharedUsed f).fetched = st.fetched := rfl

@[simp] theorem LinkState.get_markSharedUsed (st : LinkState) (f : Nat) (i : Nat) :
    (st.markSharedUsed f).get i = st.get i := rfl

@[simp] theorem LinkState.fetched_addFetched (st : LinkState) (f : Nat) :
    (st.addFetched f).fetched = st.fetched ++ [f] := rfl

@[simp] theorem LinkState.errors_addError (st : LinkState) (d : Diag) :
    (st.addError d).errors = st.errors ++ [d] := rfl

@[simp] theorem LinkState.warnings_addWarning (st : LinkState) (d : Diag) :
    (st.addWarning d).warnings = st.warnings ++ [d] := rfl

@[simp] theorem LinkState.length_addFetched (st : LinkState) (f : Nat) :
    (st.addFetched f).symVector.length = st.symVector.length := rfl

@[simp] theorem LinkState.lookupName_addFetched (st : LinkState) (f : Nat) (n : String) :
    (st.addFetched f).lookupName n = st.lookupName n := rfl

@[simp] theorem LinkState.warnings_addFetched (st : LinkState) (f : Nat) :
    (st.addFetched f).warnings = st.warnings := rfl

@[simp] theorem LinkState.sharedUsed_addFetched (st : LinkState) (f : Nat) :
    (st.addFetched f).sharedUsed = st.sharedUsed := rfl

@[simp] theorem LinkState.sharedUsed_addError (st : LinkState) (d : Diag) :
    (st.addError d).sharedUsed = st.sharedUsed := rfl

@[simp] theorem LinkState.sharedUsed_addWarning (st : LinkState) (d : Diag) :
    (st.addWarning d).sharedUsed = st.sharedUsed := rfl

@[simp] theorem LinkState.sharedUsed_markSharedUsed (st : LinkState) (f : Nat) :
    (st.markSharedUsed f).sharedUsed = st.sharedUsed ++ [f] := rfl

@[simp] theorem LinkState.length_markSharedUsed (st : LinkState) (f : Nat) :
    (st.markSharedUsed f).symVector.length = st.symVector.length := rfl

@[simp] theorem LinkState.lookupName_markSharedUsed (st : LinkState) (f : Nat) (n : String) :
    (st.markSharedUsed f).lookupName n = st.lookupName n := rfl

@[simp] theorem LinkState.warnings_markSharedUsed (st : LinkState) (f : Nat) :
    (st.markSharedUsed f).warnings = st.warnings := rfl

@[simp] theorem mergeAttrs_body (cfg : Config) (vis : Nat) (co uro : Bool) (s : Symbol) :
    (mergeAttrs cfg vis co uro s).body = s.body := by
  unfold mergeAttrs
  split_ifs <;> rfl

@[simp] theorem mergeAttrs_binding (cfg : Config) (vis : Nat) (co uro : Bool) (s : Symbol) :
    (mergeAttrs cfg vis co uro s).binding = s.binding := by
  unfold mergeAttrs
  split_ifs <;> rfl

@[simp] theorem mergeAttrs_versionId (cfg : Config) (vis : Nat) (co uro : Bool) (s : Symbol) :
    (mergeAttrs cfg vis co uro s).versionId = s.versionId := by
  unfold mergeAttrs
  split_ifs <;> rfl

@[simp] theorem mergeAttrs_inVersionScript (cfg : Config) (vis : Nat) (co uro : Bool)
    (s : Symbol) : (mergeAttrs cfg vis co uro s).inVersionScript = s.inVersionScript := by
  unfold mergeAttrs
  split_ifs <;> rfl

@[simp] theorem mergeAttrs_traced (cfg : Config) (vis : Nat) (co uro : Bool) (s : Symbol) :
    (mergeAttrs cfg vis co uro s).traced = s.traced := by
  unfold mergeAttrs
  split_ifs <;> rfl

@[simp] theorem mergeAttrs_visibility (cfg : Config) (vis : Nat) (co uro : Bool) (s : Symbol) :
    (mergeAttrs cfg vis co uro s).visibility = getMinVisibility s.visibility vis := by
  unfold mergeAttrs
  split_ifs <;> rfl

/-- The TLS-check stage either leaves the state alone or appends one
TLS-mismatch error. -/
theorem tlsCheck_cases (st : LinkState) (w : Bool) (s : Symbol) (t : Nat)
    (f : Option InFile) :
    tlsCheck st w s t f = st ∨ ∃ d, tlsCheck st w s t f = st.addError d := by
  unfold tlsCheck
  cases w
  · cases hb : s.body with
    | none => exact Or.inl rfl
    | some b =>
        simp only [Bool.not_false, if_true]
        split_ifs
        · exact Or.inr ⟨_, rfl⟩
        · exact Or.inl rfl
  · exact Or.inl rfl

theorem tlsCheck_true (st : LinkState) (s : Symbol) (t : Nat) (f : Option InFile) :
    tlsCheck st true s t f = st := rfl

@[simp] theorem get_tlsCheck (st : LinkState) (w : Bool) (s : Symbol) (t : Nat)
    (f : Option InFile) (i : Nat) : (tlsCheck st w s t f).get i = st.get i := by
  rcases tlsCheck_cases st w s t f with h | ⟨d, h⟩ <;> rw [h] <;> rfl

@[simp] theorem lookupName_tlsCheck (st : LinkState) (w : Bool) (s : Symbol) (t : Nat)
    (f : Option InFile) (n : String) :
    (tlsCheck st w s t f).lookupName n = st.lookupName n := by
  rcases tlsCheck_cases st w s t f with h | ⟨d, h⟩ <;> rw [h] <;> rfl

@[simp] theorem warnings_tlsCheck (st : LinkState) (w : Bool) (s : Symbol) (t : Nat)
    (f : Option InFile) : (tlsCheck st w s t f).warnings = st.warnings := by
  rcases tlsCheck_cases st w s t f with h | ⟨d, h⟩ <;> rw [h] <;> rfl

@[simp] theorem fetched_tlsCheck (st : LinkState) (w : Bool) (s : Symbol) (t : Nat)
    (f : Option InFile) : (tlsCheck st w s t f).fetched = st.fetched := by
  rcases tlsCheck_cases st w s t f with h | ⟨d, h⟩ <;> rw [h] <;> rfl

@[simp] theorem length_tlsCheck (st : LinkState) (w : Bool) (s : Symbol) (t : Nat)
    (f : Option InFile) : (tlsCheck st w s t f).symVector.length = st.symVector.length := by
  rcases tlsCheck_cases st w s t f with h | ⟨d, h⟩ <;> rw [h] <;> rfl

/-- When the incoming type agrees with the settled body type, the TLS
check never fires. -/
theorem tlsCheck_same_type (st : LinkState) (w : Bool) (s : Symbol) (b : SymbolBody)
    (f : Option InFile) (hb : s.body = some b) :
    tlsCheck st w s b.typeOf f = st := by
  unfold tlsCheck
  cases w
  · simp [hb, SymbolBody.isTls]
  · rfl

/-! ### C1 — the non-common precedence rule table -/

/-- Outcome of a precedence comparison, in the spec's vocabulary. -/
inductive Resolution where
  | win
  | lose
  | conflict
deriving DecidableEq, Repr

/-- Read the comparator's integer convention (1 / -1 / 0) as a
`Resolution`. -/
def resolutionOfInt (c : Int) : Resolution :=
  if 0 < c then Resolution.win else if c < 0 then Resolution.lose else Resolution.conflict

/-- Modelled from the spec: the base rule table of `compareDefined` — win
if the slot was just created, or the existing body is lazy or not locally
defined (a shared-library stub or plain undefined reference); lose if the
incoming binding is weak and the existing is a real local definition;
win if the existing is weak and the incoming is not; otherwise
conflict. -/
def specCompareDefined (s : Symbol) (b : SymbolBody) (wasNew : Bool)
    (binding : Nat) : Resolution :=
  if wasNew = true then Resolution.win
  else if b.isLazy = true then Resolution.win
  else if b.isUndefined = true || b.isShared = true then Resolution.win
  else if binding = STB_WEAK then Resolution.lose
  else if s.binding = STB_WEAK then Resolution.win
  else Resolution.conflict

/-- Modelled from the spec: the non-common extension — a conflict from the
base rule is downgraded to a win if the existing body is a common symbol,
and downgraded to a lose if existing and incoming are both absolute
(section-less) global definitions with an identical value. -/
def specCompareNonCommon (s : Symbol) (b : SymbolBody) (wasNew : Bool)
    (binding : Nat) (isAbs : Bool) (value : Nat) : Resolution :=
  match specCompareDefined s b wasNew binding with
  | Resolution.conflict =>
      if b.isCommonKind then Resolution.win
      else
        match b with
        | SymbolBody.regular _ _ _ _ rvalue _ none _ =>
            if s.binding = STB_GLOBAL ∧ binding = STB_GLOBAL ∧ isAbs = true ∧ rvalue = value
            then Resolution.lose else Resolution.conflict
        | _ => Resolution.conflict
  | r => r

/-- C1: for every defined non-common contribution (`addRegular`,
`addSynthetic`, `addBitcode`), the precedence decision of
`compareDefinedNonCommon` matches the spec's rule table: win if the slot
was just created, or the existing body is lazy or not locally defined;
lose if the incoming binding is weak and the existing is a real local
definition; win if the existing is weak and the incoming is not;
otherwise conflict — downgraded to win when the existing body is common,
and to lose when existing and incoming are both absolute global
definitions with an identical value.  Bindings range over the spec's
weak/global interface domain. -/
theorem C1_nonCommon_precedence_table (cfg : Config) (st : LinkState) (i : Nat)
    (wasNew : Bool) (binding : Nat) (isAbs : Bool) (value : Nat) (b : SymbolBody)
    (hb : (st.get i).body = some b)
    (hbind : binding = STB_GLOBAL ∨ binding = STB_WEAK)
    (hsbind : (st.get i).binding = STB_GLOBAL ∨ (st.get i).binding = STB_WEAK) :
    resolutionOfInt (compareDefinedNonCommon cfg st i wasNew binding isAbs value).1 =
      specCompareNonCommon (st.get i) b wasNew binding isAbs value := by
  simp only [compareDefinedNonCommon, compareDefined]
  generalize hgen : st.get i = s at hb hsbind ⊢
  clear hgen
  rcases hbind with rfl | rfl <;>
    cases wasNew <;>
      rcases hsbind with hs | hs <;>
        rcases b with ⟨n, il, so, ty, f⟩ | ⟨n, il, so, ty, v, sz, sec, f⟩ |
          ⟨n, sz, al, so, ty, f⟩ | ⟨n, v, os⟩ | ⟨n, f, so, ty, vd⟩ |
          ⟨n, f, ty, m⟩ | ⟨n, ty, o⟩ <;>
        (try rcases sec with _ | s') <;>
        simp_all [specCompareNonCommon, specCompareDefined, resolutionOfInt,
          SymbolBody.isLazy, SymbolBody.isUndefined, SymbolBody.isShared,
          SymbolBody.isInCurrentDSO, SymbolBody.isCommonKind, Symbol.isWeak,
          STB_GLOBAL, STB_WEAK] <;>
        (try (split_ifs <;> simp_all))

/-! ### C2 — idempotent insert -/

theorem find?_replaceEntry (l : List (String × SymIndex)) (name : String) (v : SymIndex) :
    (replaceEntry l name v).find? (fun p => p.1 == name) =
      (l.find? (fun p => p.1 == name)).map (fun p => (p.1, v)) := by
  induction l with
  | nil => rfl
  | cons x xs ih =>
    by_cases h : x.1 == name
    · simp [replaceEntry, List.find?, h]
    · simp only [replaceEntry, List.map] at ih ⊢
      rw [if_neg (by simpa using h)]
      rw [List.find?_cons_of_neg _ (by simpa using h), List.find?_cons_of_neg _ (by simpa using h)]
      exact ih

/-- `insert(StringRef)` on a name whose slot already exists returns the
existing index, `was_new = false`, and an unchanged state. -/
theorem insertName_found (cfg : Config) (st : LinkState) (name : String) (i : Nat)
    (tr : Bool) (h : st.lookupName name = some ⟨(i : Int), tr⟩) :
    insertName cfg st name = (i, false, st) := by
  simp [insertName, h]

/-- `insert(StringRef)` on an absent name appends a fresh default slot. -/
theorem insertName_fresh (cfg : Config) (st : LinkState) (name : String)
    (h : st.lookupName name = none) :
    insertName cfg st name = (st.symVector.length, true,
      { st with
        symtab := st.symtab ++ [(name, ⟨(st.symVector.length : Int), false⟩)]
        symVector := st.symVector ++ [freshSymbol cfg false] }) := by
  simp [insertName, h]

/-- C2: calling `insert(name)` twice before any body is assigned returns
the identical slot — same index, second call reports `was_new = false`
and leaves the state untouched — at most one `Symbol` is ever created per
distinct name, and a freshly created slot carries weak binding, default
visibility and the default version id. -/
theorem C2_insert_idempotent (cfg : Config) (st : LinkState) (name : String) :
    (insertName cfg (insertName cfg st name).2.2 name).1 = (insertName cfg st name).1 ∧
    (insertName cfg (insertName cfg st name).2.2 name).2.1 = false ∧
    (insertName cfg (insertName cfg st name).2.2 name).2.2 = (insertName cfg st name).2.2 ∧
    ((insertName cfg st name).2.1 = true →
      ((insertName cfg st name).2.2.get (insertName cfg st name).1).binding = STB_WEAK ∧
      ((insertName cfg st name).2.2.get (insertName cfg st name).1).visibility = STV_DEFAULT ∧
      ((insertName cfg st name).2.2.get (insertName cfg st name).1).versionId =
        cfg.defaultSymbolVersion ∧
      (insertName cfg st name).2.2.symVector.length = st.symVector.length + 1) ∧
    ((insertName cfg st name).2.1 = false → (insertName cfg st name).2.2 = st) := by
  rcases h : st.lookupName name with _ | v
  · have hf : st.symtab.find? (fun p => p.1 == name) = none := by
      simpa [LinkState.lookupName] using h
    rw [insertName_fresh cfg st name h]
    dsimp only
    have h2 : ({ st with
        symtab := st.symtab ++ [(name, ⟨(st.symVector.length : Int), false⟩)]
        symVector := st.symVector ++ [freshSymbol cfg false] } : LinkState).lookupName name =
        some ⟨(st.symVector.length : Int), false⟩ := by
      simp [LinkState.lookupName, List.find?_append, hf]
    rw [insertName_found cfg _ name st.symVector.length false h2]
    refine ⟨rfl, rfl, rfl, fun _ => ⟨?_, ?_, ?_, ?_⟩, fun hc => by simp at hc⟩ <;>
      simp [LinkState.get, getD_append_length, freshSymbol]
  · by_cases hneg : v.idx < 0
    · have hstep : insertName cfg st name = (st.symVector.length, true,
          { st with
            symtab := replaceEntry st.symtab name ⟨(st.symVector.length : Int), true⟩
            symVector := st.symVector ++ [freshSymbol cfg true] }) := by
        simp [insertName, h, hneg]
      rw [hstep]
      dsimp only
      have h2 : ({ st with
          symtab := replaceEntry st.symtab name ⟨(st.symVector.length : Int), true⟩
          symVector := st.symVector ++ [freshSymbol cfg true] } : LinkState).lookupName name =
          some ⟨(st.symVector.length : Int), true⟩ := by
        rcases hfind : st.symtab.find? (fun p => p.1 == name) with _ | p
        · simp [LinkState.lookupName, hfind] at h
        · simp [LinkState.lookupName, find?_replaceEntry, hfind]
      rw [insertName_found cfg _ name st.symVector.length true h2]
      refine ⟨rfl, rfl, rfl, fun _ => ⟨?_, ?_, ?_, ?_⟩, fun hc => by simp at hc⟩ <;>
        simp [LinkState.get, getD_append_length, freshSymbol]
    · have hi : v.idx = ((v.idx.toNat : Nat) : Int) := by omega
      have h' : st.lookupName name = some ⟨((v.idx.toNat : Nat) : Int), v.traced⟩ := by
        rw [h]; congr 1; rw [← hi]
      rw [insertName_found cfg st name v.idx.toNat v.traced h']
      dsimp only
      rw [insertName_found cfg st name v.idx.toNat v.traced h']
      exact ⟨rfl, rfl, rfl, fun hc => by simp at hc, fun _ => rfl⟩

/-! ### C3 — the common-symbol size/alignment ratchet -/

/-- Unfolding of the five-argument `insert` on an absent name: the fresh
default slot is appended with the incoming attributes merged in, and the
TLS check is skipped. -/
theorem insertAttrs_fresh (cfg : Config) (st : LinkState) (name : String)
    (ty vis : Nat) (co : Bool) (file : Option InFile)
    (h : st.lookupName name = none) :
    insertAttrs cfg st name ty vis co file =
      (st.symVector.length, true,
        { st with
          symtab := st.symtab ++ [(name, ⟨(st.symVector.length : Int), false⟩)]
          symVector := st.symVector ++
            [mergeAttrs cfg vis co (usedInRegularObjOf file) (freshSymbol cfg false)] }) := by
  simp only [insertAttrs, insertName_fresh cfg st name h]
  rw [tlsCheck_true]
  simp [LinkState.setSym, LinkState.get, getD_append_length, set_append_length]

/-- Unfolding of the five-argument `insert` on a present name: the slot's
attributes are merged in place and the TLS check runs. -/
theorem insertAttrs_found (cfg : Config) (st : LinkState) (name : String)
    (ty vis : Nat) (co : Bool) (file : Option InFile) (i : Nat) (tr : Bool)
    (h : st.lookupName name = some ⟨(i : Int), tr⟩) :
    insertAttrs cfg st name ty vis co file =
      (i, false,
        tlsCheck
          (st.setSym i (mergeAttrs cfg vis co (usedInRegularObjOf file) (st.get i)))
          false (mergeAttrs cfg vis co (usedInRegularObjOf file) (st.get i)) ty file) := by
  simp only [insertAttrs, insertName_found cfg st name i tr h]

/-- `addCommon` on an absent name installs the fresh common body with the
requested binding. -/
theorem addCommon_fresh (cfg : Config) (st : LinkState) (name : String)
    (size alignment binding stOther type : Nat) (file : Option InFile)
    (h : st.lookupName name = none) :
    addCommon cfg st name size alignment binding stOther type file =
      (st.symVector.length,
        { st with
          symtab := st.symtab ++ [(name, ⟨(st.symVector.length : Int), false⟩)]
          symVector := st.symVector ++
            [{ mergeAttrs cfg (getVisibility stOther) false (usedInRegularObjOf file)
                 (freshSymbol cfg false) with
               binding := binding
               body := some (SymbolBody.common name size alignment stOther type file) }] }) := by
  simp only [addCommon,
    insertAttrs_fresh cfg st name type (getVisibility stOther) false file h]
  have hc : compareDefined
      (({ st with
          symtab := st.symtab ++ [(name, ⟨(st.symVector.length : Int), false⟩)]
          symVector := st.symVector ++
            [mergeAttrs cfg (getVisibility stOther) false (usedInRegularObjOf file)
              (freshSymbol cfg false)] } : LinkState).get st.symVector.length)
      true binding = 1 := by
    simp [compareDefined]
  rw [hc]
  norm_num
  simp [LinkState.setSym, LinkState.get, getD_append_length, set_append_length]

/-- `addCommon` on a slot already holding a strong common body of the
same type merges: the alignment is ratcheted to the max, the whole body
is replaced only when the new size is strictly larger, and no error is
recorded. -/
theorem addCommon_merge (cfg : Config) (st : LinkState) (name n : String)
    (size alignment stOther type csize calign cso : Nat)
    (file cf : Option InFile) (i : Nat) (tr : Bool)
    (h : st.lookupName name = some ⟨(i : Int), tr⟩)
    (hi : i < st.symVector.length)
    (hbody : (st.get i).body = some (SymbolBody.common n csize calign cso type cf))
    (hbind : (st.get i).binding = STB_GLOBAL) :
    (addCommon cfg st name size alignment STB_GLOBAL stOther type file).1 = i ∧
    (((addCommon cfg st name size alignment STB_GLOBAL stOther type file).2.get i).body =
      some (if size > csize
        then SymbolBody.common name size (max calign alignment) stOther type file
        else SymbolBody.common n csize (max calign alignment) cso type cf)) ∧
    (addCommon cfg st name size alignment STB_GLOBAL stOther type file).2.errors =
      st.errors ∧
    (addCommon cfg st name size alignment STB_GLOBAL stOther type file).2.symVector.length =
      st.symVector.length := by
  have hm2body : (mergeAttrs cfg (getVisibility stOther) false (usedInRegularObjOf file)
      (st.get i)).body = some (SymbolBody.common n csize calign cso type cf) := by
    simp [hbody]
  simp only [addCommon,
    insertAttrs_found cfg st name type (getVisibility stOther) false file i tr h]
  have htls := tlsCheck_same_type
    (st.setSym i (mergeAttrs cfg (getVisibility stOther) false (usedInRegularObjOf file)
      (st.get i)))
    false
    (mergeAttrs cfg (getVisibility stOther) false (usedInRegularObjOf file) (st.get i))
    (SymbolBody.common n csize calign cso type cf) file hm2body
  simp only [SymbolBody.typeOf] at htls
  rw [htls]
  have hget : (st.setSym i (mergeAttrs cfg (getVisibility stOther) false
      (usedInRegularObjOf file) (st.get i))).get i =
      mergeAttrs cfg (getVisibility stOther) false (usedInRegularObjOf file) (st.get i) :=
    LinkState.get_setSym_self st i _ hi
  have hcmp : compareDefined (mergeAttrs cfg (getVisibility stOther) false
      (usedInRegularObjOf file) (st.get i)) false STB_GLOBAL = 0 := by
    simp [compareDefined, hm2body, hbody, SymbolBody.isLazy, SymbolBody.isInCurrentDSO,
      SymbolBody.isUndefined, SymbolBody.isShared, Symbol.isWeak, hbind,
      STB_GLOBAL, STB_WEAK]
  rw [hget, hcmp]
  norm_num
  rw [hbody]
  have hlen1 : i < (st.setSym i (mergeAttrs cfg (getVisibility stOther) false
      (usedInRegularObjOf file) (st.get i))).symVector.length := by
    rw [LinkState.length_setSym]; exact hi
  by_cases hwc : cfg.warnCommon = true <;>
    by_cases hsz : size > csize <;>
      simp [hwc, hsz, hget, hi, LinkState.get_setSym_self, LinkState.length_setSym, hlen1,
        Nat.lt_irrefl]

/-- C3: two common contributions to the same fresh name with strong
bindings end as one common body with the maximum alignment and the
maximum size; the body itself (hence its stOther/file fields) is replaced
only when the new size is strictly larger, only one slot exists, and
merging commons records no error.  Instantiating the sizes both ways
gives the either-order form of the ratchet. -/
theorem C3_common_ratchet (cfg : Config) (st : LinkState) (name : String)
    (s1 a1 so1 s2 a2 so2 t : Nat) (f1 f2 : Option InFile)
    (hlk : st.lookupName name = none) :
    (addCommon cfg (addCommon cfg st name s1 a1 STB_GLOBAL so1 t f1).2 name
        s2 a2 STB_GLOBAL so2 t f2).1 = st.symVector.length ∧
    (((addCommon cfg (addCommon cfg st name s1 a1 STB_GLOBAL so1 t f1).2 name
        s2 a2 STB_GLOBAL so2 t f2).2.get st.symVector.length).body =
      some (SymbolBody.common name (max s1 s2) (max a1 a2)
        (if s1 < s2 then so2 else so1) t (if s1 < s2 then f2 else f1))) ∧
    (addCommon cfg (addCommon cfg st name s1 a1 STB_GLOBAL so1 t f1).2 name
        s2 a2 STB_GLOBAL so2 t f2).2.errors = st.errors ∧
    (addCommon cfg (addCommon cfg st name s1 a1 STB_GLOBAL so1 t f1).2 name
        s2 a2 STB_GLOBAL so2 t f2).2.symVector.length = st.symVector.length + 1 := by
  have hf : st.symtab.find? (fun p => p.1 == name) = none := by
    simpa [LinkState.lookupName] using hlk
  rw [addCommon_fresh cfg st name s1 a1 STB_GLOBAL so1 t f1 hlk]
  dsimp only
  have hR1 : ({ st with
      symtab := st.symtab ++ [(name, ⟨(st.symVector.length : Int), false⟩)]
      symVector := st.symVector ++
        [{ mergeAttrs cfg (getVisibility so1) false (usedInRegularObjOf f1)
             (freshSymbol cfg false) with
           binding := STB_GLOBAL
           body := some (SymbolBody.common name s1 a1 so1 t f1) }] } : LinkState).lookupName
      name = some ⟨(st.symVector.length : Int), false⟩ := by
    simp [LinkState.lookupName, List.find?_append, hf]
  have hR2 : st.symVector.length < ({ st with
      symtab := st.symtab ++ [(name, ⟨(st.symVector.length : Int), false⟩)]
      symVector := st.symVector ++
        [{ mergeAttrs cfg (getVisibility so1) false (usedInRegularObjOf f1)
             (freshSymbol cfg false) with
           binding := STB_GLOBAL
           body := some (SymbolBody.common name s1 a1 so1 t f1) }] } : LinkState).symVector.length := by
    simp
  have hR3 : (({ st with
      symtab := st.symtab ++ [(name, ⟨(st.symVector.length : Int), false⟩)]
      symVector := st.symVector ++
        [{ mergeAttrs cfg (getVisibility so1) false (usedInRegularObjOf f1)
             (freshSymbol cfg false) with
           binding := STB_GLOBAL
           body := some (SymbolBody.common name s1 a1 so1 t f1) }] } : LinkState).get
      st.symVector.length).body = some (SymbolBody.common name s1 a1 so1 t f1) := by
    simp [LinkState.get, getD_append_length]
  have hR4 : (({ st with
      symtab := st.symtab ++ [(name, ⟨(st.symVector.length : Int), false⟩)]
      symVector := st.symVector ++
        [{ mergeAttrs cfg (getVisibility so1) false (usedInRegularObjOf f1)
             (freshSymbol cfg false) with
           binding := STB_GLOBAL
           body := some (SymbolBody.common name s1 a1 so1 t f1) }] } : LinkState).get
      st.symVector.length).binding = STB_GLOBAL := by
    simp [LinkState.get, getD_append_length]
  obtain ⟨h1, h2, h3, h4⟩ := addCommon_merge cfg _ name name s2 a2 so2 t s1 a1 so1 f2 f1
    st.symVector.length false hR1 hR2 hR3 hR4
  refine ⟨h1, ?_, by simpa using h3, by simpa using h4⟩
  rw [h2]
  rcases Nat.lt_or_ge s1 s2 with hs | hs
  · simp [hs, Nat.max_eq_right (Nat.le_of_lt hs)]
  · have : ¬(s2 > s1) := by omega
    simp [this, Nat.max_eq_left hs, show ¬(s1 < s2) by omega]

/-! ### C4 — lazy fetch discipline -/

/-- Update only the remembered type of a lazy body (`L->Type = Type`);
identity on every other body kind. -/
def SymbolBody.withType : SymbolBody → Nat → SymbolBody
  | SymbolBody.lazyArchive n f _ m, t => SymbolBody.lazyArchive n f t m
  | SymbolBody.lazyObject n _ o, t => SymbolBody.lazyObject n t o
  | b, _ => b

/-- The deferred input a lazy body would produce on fetch. -/
def SymbolBody.lazyPayload : SymbolBody → Option Nat
  | SymbolBody.lazyArchive _ _ _ m => m
  | SymbolBody.lazyObject _ _ o => o
  | _ => none

/-- A weak undefined reference to a lazy (and, as always for an
unfetched lazy slot reached only by weak references, weakly bound)
symbol fetches nothing and only re-records the remembered type. -/
theorem addUndefined_lazy_weak (cfg : Config) (st : LinkState) (name : String)
    (il : Bool) (so ty : Nat) (co : Bool) (file : Option InFile) (i : Nat)
    (tr : Bool) (b : SymbolBody)
    (h : st.lookupName name = some ⟨(i : Int), tr⟩) (hi : i < st.symVector.length)
    (hb : (st.get i).body = some b) (hlazy : b.isLazy = true)
    (hw : (st.get i).binding = STB_WEAK) :
    (addUndefined cfg st name il STB_WEAK so ty co file).1 = i ∧
    (addUndefined cfg st name il STB_WEAK so ty co file).2.fetched = st.fetched ∧
    ((addUndefined cfg st name il STB_WEAK so ty co file).2.get i).body =
      some (b.withType ty) := by
  rcases b with _ | _ | _ | _ | _ | ⟨n, f, t, m⟩ | ⟨n, t, o⟩ <;>
    simp_all [SymbolBody.isLazy] <;>
    simp [addUndefined, insertAttrs_found cfg st name ty (getVisibility so) co file i tr h,
      LinkState.get_setSym_self, hi, hb, hw, Symbol.isWeak, STB_WEAK,
      SymbolBody.withType, LinkState.length_setSym]

/-- A strong undefined reference to a lazy symbol fetches the deferred
input, feeding it back into the input pipeline. -/
theorem addUndefined_lazy_strong (cfg : Config) (st : LinkState) (name : String)
    (il : Bool) (binding so ty : Nat) (co : Bool) (file : Option InFile) (i : Nat)
    (tr : Bool) (b : SymbolBody)
    (h : st.lookupName name = some ⟨(i : Int), tr⟩) (hi : i < st.symVector.length)
    (hb : (st.get i).body = some b) (hlazy : b.isLazy = true)
    (hstrong : binding ≠ STB_WEAK) :
    (addUndefined cfg st name il binding so ty co file).1 = i ∧
    (addUndefined cfg st name il binding so ty co file).2.fetched =
      st.fetched ++ b.lazyPayload.toList := by
  have hs2 : ¬(binding = 2) := by simpa [STB_WEAK] using hstrong
  rcases b with _ | _ | _ | _ | _ | ⟨n, f, t, m⟩ | ⟨n, t, o⟩ <;>
    any_goals (simp [SymbolBody.isLazy] at hlazy)
  · rcases m with _ | p <;>
      simp [addUndefined, insertAttrs_found cfg st name ty (getVisibility so) co file i tr h,
        LinkState.get_setSym_self, hi, hb, hs2, Symbol.isWeak, STB_WEAK,
        SymbolBody.isShared, SymbolBody.isLazy, SymbolBody.lazyPayload,
        LinkState.length_setSym]
  · rcases o with _ | p <;>
      simp [addUndefined, insertAttrs_found cfg st name ty (getVisibility so) co file i tr h,
        LinkState.get_setSym_self, hi, hb, hs2, Symbol.isWeak, STB_WEAK,
        SymbolBody.isShared, SymbolBody.isLazy, SymbolBody.lazyPayload,
        LinkState.length_setSym]

/-- An archive contribution for a symbol so far only weakly referenced
(an undefined body on a weak slot) re-records the old type into a lazy
body and fetches nothing. -/
theorem addLazyArchive_weakref (cfg : Config) (st : LinkState) (f : InFile)
    (name : String) (mf : Option Nat) (i : Nat) (tr : Bool) (b : SymbolBody)
    (h : st.lookupName name = some ⟨(i : Int), tr⟩) (hi : i < st.symVector.length)
    (hb : (st.get i).body = some b) (hundef : b.isUndefined = true)
    (hw : (st.get i).binding = STB_WEAK) :
    (addLazyArchive cfg st f name mf).fetched = st.fetched ∧
    ((addLazyArchive cfg st f name mf).get i).body =
      some (SymbolBody.lazyArchive name f b.typeOf mf) := by
  simp [addLazyArchive, insertName_found cfg st name i tr h, hb, hundef,
    Symbol.isWeak, hw, STB_WEAK, LinkState.get_setSym_self, hi]

/-- An archive contribution for a symbol already strongly referenced
(an undefined body on a strong slot) fetches the member immediately and
leaves the body alone. -/
theorem addLazyArchive_strongref (cfg : Config) (st : LinkState) (f : InFile)
    (name : String) (mf : Option Nat) (i : Nat) (tr : Bool) (b : SymbolBody)
    (h : st.lookupName name = some ⟨(i : Int), tr⟩) (hi : i < st.symVector.length)
    (hb : (st.get i).body = some b) (hundef : b.isUndefined = true)
    (hs : (st.get i).binding ≠ STB_WEAK) :
    (addLazyArchive cfg st f name mf).fetched = st.fetched ++ mf.toList ∧
    ((addLazyArchive cfg st f name mf).get i).body = some b := by
  have hw : ((st.get i).binding == STB_WEAK) = false := by simpa using hs
  rcases mf with _ | p <;>
    simp [addLazyArchive, insertName_found cfg st name i tr h, hb, hundef,
      Symbol.isWeak, hw]

/-- `addLazyObject` analogue of `addLazyArchive_weakref`. -/
theorem addLazyObject_weakref (cfg : Config) (st : LinkState) (name : String)
    (obj : Option Nat) (i : Nat) (tr : Bool) (b : SymbolBody)
    (h : st.lookupName name = some ⟨(i : Int), tr⟩) (hi : i < st.symVector.length)
    (hb : (st.get i).body = some b) (hundef : b.isUndefined = true)
    (hw : (st.get i).binding = STB_WEAK) :
    (addLazyObject cfg st name obj).fetched = st.fetched ∧
    ((addLazyObject cfg st name obj).get i).body =
      some (SymbolBody.lazyObject name b.typeOf obj) := by
  simp [addLazyObject, insertName_found cfg st name i tr h, hb, hundef,
    Symbol.isWeak, hw, STB_WEAK, LinkState.get_setSym_self, hi]

/-- `addLazyObject` analogue of `addLazyArchive_strongref`. -/
theorem addLazyObject_strongref (cfg : Config) (st : LinkState) (name : String)
    (obj : Option Nat) (i : Nat) (tr : Bool) (b : SymbolBody)
    (h : st.lookupName name = some ⟨(i : Int), tr⟩) (hi : i < st.symVector.length)
    (hb : (st.get i).body = some b) (hundef : b.isUndefined = true)
    (hs : (st.get i).binding ≠ STB_WEAK) :
    (addLazyObject cfg st name obj).fetched = st.fetched ++ obj.toList ∧
    ((addLazyObject cfg st name obj).get i).body = some b := by
  have hw : ((st.get i).binding == STB_WEAK) = false := by simpa using hs
  rcases obj with _ | p <;>
    simp [addLazyObject, insertName_found cfg st name i tr h, hb, hundef,
      Symbol.isWeak, hw]

/-- C4: for a symbol whose body is lazy (archive or object), a weak
undefined reference fetches nothing and only re-records the remembered
type, while a strong undefined reference fetches the deferred input and
feeds it back as a new input file; symmetrically, a lazy contribution
arriving after only weak references re-records the type without
fetching, and after a strong reference fetches immediately. -/
theorem C4_weak_lazy_never_fetches (cfg : Config)
    (stL stU : LinkState) (nameL nameU : String)
    (iL iU : Nat) (trL trU : Bool) (bL bU : SymbolBody)
    (il : Bool) (so ty : Nat) (co : Bool) (file : Option InFile)
    (f : InFile) (mf obj : Option Nat) (binding : Nat)
    (hL : stL.lookupName nameL = some ⟨(iL : Int), trL⟩)
    (hiL : iL < stL.symVector.length)
    (hbL : (stL.get iL).body = some bL) (hlazy : bL.isLazy = true)
    (hU : stU.lookupName nameU = some ⟨(iU : Int), trU⟩)
    (hiU : iU < stU.symVector.length)
    (hbU : (stU.get iU).body = some bU) (hundef : bU.isUndefined = true)
    (hstrong : binding ≠ STB_WEAK) :
    ((stL.get iL).binding = STB_WEAK →
      (addUndefined cfg stL nameL il STB_WEAK so ty co file).2.fetched = stL.fetched ∧
      ((addUndefined cfg stL nameL il STB_WEAK so ty co file).2.get iL).body =
        some (bL.withType ty)) ∧
    ((addUndefined cfg stL nameL il binding so ty co file).2.fetched =
      stL.fetched ++ bL.lazyPayload.toList) ∧
    ((stU.get iU).binding = STB_WEAK →
      (addLazyArchive cfg stU f nameU mf).fetched = stU.fetched ∧
      ((addLazyArchive cfg stU f nameU mf).get iU).body =
        some (SymbolBody.lazyArchive nameU f bU.typeOf mf) ∧
      (addLazyObject cfg stU nameU obj).fetched = stU.fetched ∧
      ((addLazyObject cfg stU nameU obj).get iU).body =
        some (SymbolBody.lazyObject nameU bU.typeOf obj)) ∧
    ((stU.get iU).binding ≠ STB_WEAK →
      (addLazyArchive cfg stU f nameU mf).fetched = stU.fetched ++ mf.toList ∧
      (addLazyObject cfg stU nameU obj).fetched = stU.fetched ++ obj.toList) := by
  refine ⟨fun hw => ?_, ?_, fun hw => ?_, fun hs => ?_⟩
  · obtain ⟨_, h2, h3⟩ :=
      addUndefined_lazy_weak cfg stL nameL il so ty co file iL trL bL hL hiL hbL hlazy hw
    exact ⟨h2, h3⟩
  · exact (addUndefined_lazy_strong cfg stL nameL il binding so ty co file iL trL bL
      hL hiL hbL hlazy hstrong).2
  · obtain ⟨a1, a2⟩ :=
      addLazyArchive_weakref cfg stU f nameU mf iU trU bU hU hiU hbU hundef hw
    obtain ⟨o1, o2⟩ :=
      addLazyObject_weakref cfg stU nameU obj iU trU bU hU hiU hbU hundef hw
    exact ⟨a1, a2, o1, o2⟩
  · exact ⟨(addLazyArchive_strongref cfg stU f nameU mf iU trU bU hU hiU hbU hundef hs).1,
      (addLazyObject_strongref cfg stU nameU obj iU trU bU hU hiU hbU hundef hs).1⟩

/-! ### C10 — late lazy contributions are discarded without any effect -/

/-- C10: an `addLazyArchive` or `addLazyObject` contribution naming an
already-present symbol whose body is not `Undefined` returns with the
whole state — symbol body, binding, flags, diagnostics and fetch log —
identical, and fetches nothing. -/
theorem C10_late_lazy_discarded (cfg : Config) (st : LinkState) (name : String)
    (f : InFile) (mf obj : Option Nat) (i : Nat) (tr : Bool) (b : SymbolBody)
    (h : st.lookupName name = some ⟨(i : Int), tr⟩)
    (hb : (st.get i).body = some b) (hnd : b.isUndefined = false) :
    addLazyArchive cfg st f name mf = st ∧ addLazyObject cfg st name obj = st := by
  constructor <;>
    simp [addLazyArchive, addLazyObject, insertName_found cfg st name i tr h, hb, hnd]

/-! ### C6 — shared contributions never override real definitions -/

/-- C6: an `addShared` contribution replaces the slot's body only when
the slot was newly inserted or its existing body is `Undefined` — it
never overrides a real definition — and a shared definition with default
visibility sets the slot's export-to-dynamic flag whether or not its body
is installed. -/
theorem C6_shared_never_overrides (cfg : Config) (st stF : LinkState)
    (file : InFile) (name : String) (symStOther symType : Nat)
    (vd : Option Nat) (i : Nat) (tr : Bool) (b : SymbolBody)
    (h : st.lookupName name = some ⟨(i : Int), tr⟩)
    (hi : i < st.symVector.length)
    (hb : (st.get i).body = some b)
    (hlkF : stF.lookupName name = none) :
    (b.isUndefined = false →
      ((addShared cfg st file name symStOther symType vd).get i).body = some b) ∧
    (b.isUndefined = true →
      ((addShared cfg st file name symStOther symType vd).get i).body =
        some (SymbolBody.sharedSym name file symStOther symType vd)) ∧
    (getVisibility symStOther = STV_DEFAULT →
      ((addShared cfg st file name symStOther symType vd).get i).exportDynamic = true) ∧
    ((addShared cfg stF file name symStOther symType vd).get
        stF.symVector.length).body =
      some (SymbolBody.sharedSym name file symStOther symType vd) := by
  have hlen : i < (st.setSym i (mergeAttrs cfg STV_DEFAULT true
      (usedInRegularObjOf (some file)) (st.get i))).symVector.length := by
    rw [LinkState.length_setSym]; exact hi
  refine ⟨fun hnd => ?_, fun hund => ?_, fun hv => ?_, ?_⟩
  · by_cases hv : getVisibility symStOther = STV_DEFAULT <;>
      by_cases hwk : Symbol.isWeak ((st.setSym i (mergeAttrs cfg STV_DEFAULT true
        (usedInRegularObjOf (some file)) (st.get i))).get i) = true <;>
      simp [addShared, insertAttrs_found cfg st name symType STV_DEFAULT true (some file) i tr h,
        LinkState.get_setSym_self, hi, hlen, hb, hnd, hv, hwk, LinkState.length_setSym]
  · by_cases hv : getVisibility symStOther = STV_DEFAULT <;>
      simp [addShared, insertAttrs_found cfg st name symType STV_DEFAULT true (some file) i tr h,
        LinkState.get_setSym_self, hi, hlen, hb, hund, hv, Symbol.isWeak,
        LinkState.length_setSym] <;>
      split_ifs <;>
      simp [LinkState.get_setSym_self, hi, hlen, LinkState.length_setSym]
  · by_cases hund : b.isUndefined = true <;>
      simp [addShared, insertAttrs_found cfg st name symType STV_DEFAULT true (some file) i tr h,
        LinkState.get_setSym_self, hi, hlen, hb, hund, hv, Symbol.isWeak,
        LinkState.length_setSym] <;>
      split_ifs <;>
      simp [LinkState.get_setSym_self, hi, hlen, LinkState.length_setSym]
  · have hRget : ({ stF with
        symtab := stF.symtab ++ [(name, ⟨(stF.symVector.length : Int), false⟩)]
        symVector := stF.symVector ++
          [mergeAttrs cfg STV_DEFAULT true (usedInRegularObjOf (some file))
            (freshSymbol cfg false)] } : LinkState).get stF.symVector.length =
        mergeAttrs cfg STV_DEFAULT true (usedInRegularObjOf (some file))
          (freshSymbol cfg false) := by
      show (stF.symVector ++ [_]).getD stF.symVector.length default = _
      exact getD_append_length _ _ _
    have hRlen : stF.symVector.length < ({ stF with
        symtab := stF.symtab ++ [(name, ⟨(stF.symVector.length : Int), false⟩)]
        symVector := stF.symVector ++
          [mergeAttrs cfg STV_DEFAULT true (usedInRegularObjOf (some file))
            (freshSymbol cfg false)] } : LinkState).symVector.length := by
      simp
    by_cases hv2 : getVisibility symStOther = STV_DEFAULT <;>
      simp [addShared, insertAttrs_fresh cfg stF name symType STV_DEFAULT true (some file) hlkF,
        hv2, hRget, hRlen, LinkState.get_setSym_self, LinkState.length_setSym,
        Symbol.isWeak, freshSymbol, STB_WEAK] <;>
      split_ifs <;>
      simp [LinkState.get_setSym_self, LinkState.length_setSym, hRlen]

/-! ### C8 — the TLS attribute mismatch is a hard error -/

theorem mem_errors_printDiag (cfg : Config) (st : LinkState) (d' d : Diag)
    (h : d' ∈ st.errors) : d' ∈ (printDiag cfg st d).errors := by
  unfold printDiag
  split_ifs <;> simp [h]

theorem mem_errors_reportDuplicateSec (cfg : Config) (st : LinkState)
    (b : SymbolBody) (sec : Option InputSec) (off : Nat) (d' : Diag)
    (h : d' ∈ st.errors) : d' ∈ (reportDuplicateSec cfg st b sec off).errors := by
  unfold reportDuplicateSec reportDuplicateFile
  rcases b with _ | ⟨n, il, so, ty, v, sz, bs, bf⟩ | _ | _ | _ | _ | _ <;>
    rcases sec with _ | es <;>
    first
    | exact mem_errors_printDiag cfg st _ _ h
    | (rcases bs with _ | ds
       · exact mem_errors_printDiag cfg st _ _ h
       · exact mem_errors_printDiag cfg st _ _ h)

theorem errors_compareDefinedNonCommon (cfg : Config) (st : LinkState) (i : Nat)
    (w : Bool) (binding : Nat) (isAbs : Bool) (value : Nat) :
    (compareDefinedNonCommon cfg st i w binding isAbs value).2.errors = st.errors := by
  simp only [compareDefinedNonCommon]
  rcases hb : (st.get i).body with _ | b
  · split_ifs <;> simp
  · rcases b <;> simp only [hb] <;> split_ifs <;> simp

/-- On a conflict outcome the non-common comparator leaves the state
untouched: no binding update and no warning. -/
theorem compareDefinedNonCommon_conflict_state (cfg : Config) (st : LinkState)
    (i : Nat) (w : Bool) (binding : Nat) (isAbs : Bool) (value : Nat)
    (h : (compareDefinedNonCommon cfg st i w binding isAbs value).1 = 0) :
    (compareDefinedNonCommon cfg st i w binding isAbs value).2 = st := by
  simp only [compareDefinedNonCommon] at h ⊢
  rcases hb : (st.get i).body with _ | b
  · simp only [hb] at h ⊢
    split_ifs at h ⊢ <;> simp_all
  · rcases b <;> simp only [hb] at h ⊢ <;> split_ifs at h ⊢ <;> simp_all

/-- C8: a contribution to an existing slot whose body has a settled
(non-unknown) type and whose thread-local-storage-ness flips relative to
that body appends a TLS-mismatch diagnostic to the hard-error sink of the
shared `insert` gate — never to the warning sink, whatever the
allow-multiple-definitions mode — and the error survives the whole
`addRegular` contribution regardless of the comparator's outcome. -/
theorem C8_tls_mismatch_always_fatal (cfg : Config) (st : LinkState) (name : String)
    (ty vis stOther value size binding : Nat) (co : Bool)
    (sec : Option InputSec) (file : Option InFile) (i : Nat) (tr : Bool)
    (b : SymbolBody)
    (h : st.lookupName name = some ⟨(i : Int), tr⟩)
    (hb : (st.get i).body = some b)
    (hsettled : b.typeOf ≠ unknownType)
    (hflip : ((ty == STT_TLS) != b.isTls) = true) :
    (insertAttrs cfg st name ty vis co file).2.2.errors =
      st.errors ++ [Diag.tlsMismatch b.nameOf b.fileOf file] ∧
    (insertAttrs cfg st name ty vis co file).2.2.warnings = st.warnings ∧
    Diag.tlsMismatch b.nameOf b.fileOf file ∈
      (addRegular cfg st name stOther ty value size binding sec file).2.errors := by
  have hset : (b.typeOf != unknownType) = true := by simpa using hsettled
  have hins : ∀ (vis' : Nat) (co' : Bool),
      (insertAttrs cfg st name ty vis' co' file).2.2.errors =
        st.errors ++ [Diag.tlsMismatch b.nameOf b.fileOf file] ∧
      (insertAttrs cfg st name ty vis' co' file).2.2.warnings = st.warnings := by
    intro vis' co'
    rw [insertAttrs_found cfg st name ty vis' co' file i tr h]
    unfold tlsCheck
    simp [hb, hset, hflip]
  refine ⟨(hins vis co).1, (hins vis co).2, ?_⟩
  simp only [addRegular]
  have herr := (hins (getVisibility stOther) false).1
  have hmem : Diag.tlsMismatch b.nameOf b.fileOf file ∈
      (insertAttrs cfg st name ty (getVisibility stOther) false file).2.2.errors := by
    rw [herr]; simp
  have hcd := errors_compareDefinedNonCommon cfg
    (insertAttrs cfg st name ty (getVisibility stOther) false file).2.2
    (insertAttrs cfg st name ty (getVisibility stOther) false file).1
    (insertAttrs cfg st name ty (getVisibility stOther) false file).2.1
    binding sec.isNone value
  split_ifs
  · simpa [hcd] using hmem
  · rcases hbody : ((compareDefinedNonCommon cfg
        (insertAttrs cfg st name ty (getVisibility stOther) false file).2.2
        (insertAttrs cfg st name ty (getVisibility stOther) false file).1
        (insertAttrs cfg st name ty (getVisibility stOther) false file).2.1
        binding sec.isNone value).2.get
        (insertAttrs cfg st name ty (getVisibility stOther) false file).1).body
      with _ | b'
    · simpa [hcd] using hmem
    · exact mem_errors_reportDuplicateSec cfg _ b' sec value _ (by simpa [hcd] using hmem)
  · simpa [hcd] using hmem

/-! ### C9 — the wrap transform -/

theorem getD_append_left {α} (l l2 : List α) (i : Nat) (d : α) (h : i < l.length) :
    (l ++ l2).getD i d = l.getD i d := by
  simp [List.getD, List.getElem?_append_left h]

theorem real_prefix_ne_wrap_prefix (name : String) :
    (("__real_" ++ name) == ("__wrap_" ++ name)) = false := by
  have h : ("__real_" ++ name) ≠ ("__wrap_" ++ name) := by
    intro h
    have h2 : "__real_".data ++ name.data = "__wrap_".data ++ name.data := by
      simpa [String.data_append] using congrArg String.data h
    have h3 : "__real_".data = "__wrap_".data := List.append_cancel_right h2
    simp at h3
  simpa using h

/-- `addUndefined(Name)` on an absent name appends a strong global
`Undefined` slot. -/
theorem addUndefined1_fresh (cfg : Config) (st : LinkState) (n : String)
    (h : st.lookupName n = none) :
    addUndefined1 cfg st n = (st.symVector.length,
      { st with
        symtab := st.symtab ++ [(n, ⟨(st.symVector.length : Int), false⟩)]
        symVector := st.symVector ++
          [{ mergeAttrs cfg (getVisibility STV_DEFAULT) false (usedInRegularObjOf none)
               (freshSymbol cfg false) with
             binding := STB_GLOBAL
             body := some (SymbolBody.undefined n false STV_DEFAULT 0 none) }] }) := by
  simp only [addUndefined1, addUndefined,
    insertAttrs_fresh cfg st n 0 (getVisibility STV_DEFAULT) false none h]
  simp [LinkState.get, LinkState.setSym, getD_append_length, set_append_length]

/-- Facts about `addUndefined(Name)` on an absent name: the returned
index is the old vector length, exactly one slot is appended — a strong
global `Undefined` — and all existing slots are untouched. -/
theorem addUndefined1_fresh_facts (cfg : Config) (st : LinkState) (n : String)
    (h : st.lookupName n = none) :
    (addUndefined1 cfg st n).1 = st.symVector.length ∧
    (addUndefined1 cfg st n).2.symtab =
      st.symtab ++ [(n, ⟨(st.symVector.length : Int), false⟩)] ∧
    (addUndefined1 cfg st n).2.symVector.length = st.symVector.length + 1 ∧
    (∀ j, j < st.symVector.length → (addUndefined1 cfg st n).2.get j = st.get j) ∧
    ((addUndefined1 cfg st n).2.get st.symVector.length).body =
      some (SymbolBody.undefined n false STV_DEFAULT 0 none) := by
  rw [addUndefined1_fresh cfg st n h]
  refine ⟨rfl, rfl, by simp, fun j hj => ?_, ?_⟩
  · show (st.symVector ++ [_]).getD j default = st.symVector.getD j default
    exact getD_append_left _ _ _ _ hj
  · show ((st.symVector ++ [_]).getD st.symVector.length default).body = _
    rw [getD_append_length]

/-- C9: after `wrap(name)` on an existing symbol with fresh wrapper
names, `__real_<name>` holds exactly the body `<name>` had immediately
before the call, and the `<name>` slot holds the body of the newly
introduced undefined symbol `__wrap_<name>` — every pre-existing
reference to `<name>` now observes whatever `__wrap_<name>` resolves
to.  The transform performs only body copies, never a precedence
comparison. -/
theorem C9_wrap_transform (cfg : Config) (st : LinkState) (name : String)
    (i : Nat) (tr : Bool)
    (hlk : st.lookupName name = some ⟨(i : Int), tr⟩)
    (hi : i < st.symVector.length)
    (hreal : st.lookupName ("__real_" ++ name) = none)
    (hwrap : st.lookupName ("__wrap_" ++ name) = none) :
    (wrap cfg st name).findIdx ("__real_" ++ name) = some st.symVector.length ∧
    (wrap cfg st name).findIdx ("__wrap_" ++ name) = some (st.symVector.length + 1) ∧
    ((wrap cfg st name).get st.symVector.length).body = (st.get i).body ∧
    ((wrap cfg st name).get i).body =
      ((wrap cfg st name).get (st.symVector.length + 1)).body ∧
    ((wrap cfg st name).get i).body =
      some (SymbolBody.undefined ("__wrap_" ++ name) false STV_DEFAULT 0 none) := by
  have hfi : st.findIdx name = some i := by
    simp [LinkState.findIdx, hlk]
  have hfr : st.symtab.find? (fun p => p.1 == ("__real_" ++ name)) = none := by
    simpa [LinkState.lookupName] using hreal
  have hfw : st.symtab.find? (fun p => p.1 == ("__wrap_" ++ name)) = none := by
    simpa [LinkState.lookupName] using hwrap
  obtain ⟨r1i, r1tab, r1len, r1get, r1new⟩ :=
    addUndefined1_fresh_facts cfg st ("__real_" ++ name) hreal
  have hlkw : (addUndefined1 cfg st ("__real_" ++ name)).2.lookupName
      ("__wrap_" ++ name) = none := by
    simp [LinkState.lookupName, r1tab, List.find?_append, hfw, real_prefix_ne_wrap_prefix]
  obtain ⟨r2i, r2tab, r2len, r2get, r2new⟩ :=
    addUndefined1_fresh_facts cfg (addUndefined1 cfg st ("__real_" ++ name)).2
      ("__wrap_" ++ name) hlkw
  simp only [wrap, hfi]
  set stA := (addUndefined1 cfg st ("__real_" ++ name)).2 with hstA
  set stB := (addUndefined1 cfg stA ("__wrap_" ++ name)).2 with hstB
  rw [r1i, r2i, r1len]
  have hBlen : stB.symVector.length = st.symVector.length + 2 := by
    rw [r2len, r1len]
  have hBi : stB.get i = st.get i := by
    rw [r2get i (by omega), r1get i hi]
  have hBw : (stB.get (st.symVector.length + 1)).body =
      some (SymbolBody.undefined ("__wrap_" ++ name) false STV_DEFAULT 0 none) := by
    have := r2new
    rw [r1len] at this
    exact this
  have hne1 : i ≠ st.symVector.length := Nat.ne_of_lt hi
  have hne2 : i ≠ st.symVector.length + 1 := by omega
  have hg3 : (((stB.setSym st.symVector.length
      { stB.get st.symVector.length with body := (stB.get i).body }).setSym i
      { (stB.setSym st.symVector.length
          { stB.get st.symVector.length with body := (stB.get i).body }).get i with
        body := (stB.get (st.symVector.length + 1)).body }).get
      st.symVector.length).body = (st.get i).body := by
    rw [LinkState.get_setSym_ne _ i _ _ hne1,
      LinkState.get_setSym_self _ _ _ (by omega)]
    simp [hBi]
  have hg4 : (((stB.setSym st.symVector.length
      { stB.get st.symVector.length with body := (stB.get i).body }).setSym i
      { (stB.setSym st.symVector.length
          { stB.get st.symVector.length with body := (stB.get i).body }).get i with
        body := (stB.get (st.symVector.length + 1)).body }).get i).body =
      (stB.get (st.symVector.length + 1)).body := by
    rw [LinkState.get_setSym_self _ _ _ (by rw [LinkState.length_setSym]; omega)]
  have hg5 : ((stB.setSym st.symVector.length
      { stB.get st.symVector.length with body := (stB.get i).body }).setSym i
      { (stB.setSym st.symVector.length
          { stB.get st.symVector.length with body := (stB.get i).body }).get i with
        body := (stB.get (st.symVector.length + 1)).body }).get
      (st.symVector.length + 1) = stB.get (st.symVector.length + 1) := by
    rw [LinkState.get_setSym_ne _ i _ _ hne2,
      LinkState.get_setSym_ne _ _ _ _ (show st.symVector.length ≠
        st.symVector.length + 1 by omega)]
  rw [r1len] at r2tab
  refine ⟨?_, ?_, hg3, ?_, ?_⟩
  · simp [LinkState.findIdx, LinkState.lookupName, r2tab, r1tab, List.find?_append, hfr]
  · simp [LinkState.findIdx, LinkState.lookupName, r2tab, r1tab, List.find?_append, hfw,
      real_prefix_ne_wrap_prefix]
    omega
  · rw [hg4, hg5]
  · rw [hg4]
    exact hBw
/-! ### C7 — duplicate-symbol diagnostics -/

/-- The decision component of `compareDefinedNonCommon`, as a pure
function of the slot's current symbol. -/
def cdncDecision (s : Symbol) (wasInserted : Bool) (binding : Nat)
    (isAbsolute : Bool) (value : Nat) : Int :=
  let cmp := compareDefined s wasInserted binding
  if cmp ≠ 0 then cmp
  else
    match s.body with
    | some (SymbolBody.common _ _ _ _ _ _) => 1
    | some (SymbolBody.regular _ _ _ _ rvalue _ rsec _) =>
        if rsec = none ∧ binding = STB_GLOBAL ∧ isAbsolute = true ∧ rvalue = value then
          -1
        else 0
    | _ => 0

theorem compareDefinedNonCommon_fst (cfg : Config) (st : LinkState) (i : Nat)
    (w : Bool) (binding : Nat) (isAbs : Bool) (value : Nat) :
    (compareDefinedNonCommon cfg st i w binding isAbs value).1 =
      cdncDecision (st.get i) w binding isAbs value := by
  simp only [compareDefinedNonCommon, cdncDecision]
  rcases hb : (st.get i).body with _ | b
  · split_ifs <;> simp
  · rcases b <;> simp only [hb] <;> split_ifs <;> simp

theorem cdncDecision_congr (s s' : Symbol) (w : Bool) (binding : Nat)
    (isAbs : Bool) (value : Nat)
    (hbody : s'.body = s.body) (hbind : s'.binding = s.binding) :
    cdncDecision s' w binding isAbs value = cdncDecision s w binding isAbs value := by
  simp only [cdncDecision, compareDefined, Symbol.isWeak, hbody, hbind]

/-- The structured duplicate-symbol report for an existing body and an
incoming section-plus-offset: both origins are named, as locations when
both are available and as files otherwise. -/
def dupDiagOf (b : SymbolBody) (errSec : Option InputSec) (off : Nat) : Diag :=
  match b, errSec with
  | SymbolBody.regular n _ _ _ v _ (some dsec) _, some es =>
      Diag.duplicateSymbol n (Origin.loc dsec.id v) (Origin.loc es.id off)
  | b, es => Diag.duplicateSymbol b.nameOf (Origin.file b.fileOf)
      (Origin.file (es.bind (·.file)))

theorem reportDuplicateSec_eq (cfg : Config) (st : LinkState) (b : SymbolBody)
    (sec : Option InputSec) (off : Nat) :
    reportDuplicateSec cfg st b sec off = printDiag cfg st (dupDiagOf b sec off) := by
  unfold reportDuplicateSec reportDuplicateFile dupDiagOf
  rcases b with _ | ⟨n, il, so, ty, v, sz, bs, bf⟩ | _ | _ | _ | _ | _ <;>
    rcases sec with _ | es <;>
    first
    | rfl
    | (rcases bs with _ | ds <;> rfl)

/-- C7 (amended): a conflict outcome of the non-common comparator on an
`addRegular` contribution emits exactly one duplicate-symbol report
naming both contributing origins; it goes to the hard-error sink unless
the allow-multiple-definitions mode downgrades it to the warning sink;
the first-inserted definition's body is kept (the slot's body is not
replaced by the losing contribution, though shared attributes such as
visibility are still merged by the insert gate); and the conflict is
never silent. -/
theorem C7_duplicate_diagnostics (cfg : Config) (st : LinkState) (name : String)
    (stOther value size binding : Nat) (sec : Option InputSec)
    (file : Option InFile) (i : Nat) (tr : Bool) (b : SymbolBody)
    (h : st.lookupName name = some ⟨(i : Int), tr⟩)
    (hi : i < st.symVector.length)
    (hb : (st.get i).body = some b)
    (hcmp : cdncDecision (st.get i) false binding sec.isNone value = 0) :
    ((addRegular cfg st name stOther b.typeOf value size binding sec file).2.get i).body =
      some b ∧
    (addRegular cfg st name stOther b.typeOf value size binding sec file).2.errors =
      (if cfg.allowMultipleDefinition then st.errors
       else st.errors ++ [dupDiagOf b sec value]) ∧
    (addRegular cfg st name stOther b.typeOf value size binding sec file).2.warnings =
      (if cfg.allowMultipleDefinition then st.warnings ++ [dupDiagOf b sec value]
       else st.warnings) := by
  simp only [addRegular,
    insertAttrs_found cfg st name b.typeOf (getVisibility stOther) false file i tr h]
  have hm2body : (mergeAttrs cfg (getVisibility stOther) false (usedInRegularObjOf file)
      (st.get i)).body = some b := by simp [hb]
  have htls := tlsCheck_same_type
    (st.setSym i (mergeAttrs cfg (getVisibility stOther) false (usedInRegularObjOf file)
      (st.get i)))
    false
    (mergeAttrs cfg (getVisibility stOther) false (usedInRegularObjOf file) (st.get i)) b
    file hm2body
  rw [htls]
  have hget : (st.setSym i (mergeAttrs cfg (getVisibility stOther) false
      (usedInRegularObjOf file) (st.get i))).get i =
      mergeAttrs cfg (getVisibility stOther) false (usedInRegularObjOf file) (st.get i) :=
    LinkState.get_setSym_self st i _ hi
  have hfst : (compareDefinedNonCommon cfg
      (st.setSym i (mergeAttrs cfg (getVisibility stOther) false (usedInRegularObjOf file)
        (st.get i))) i false binding sec.isNone value).1 = 0 := by
    rw [compareDefinedNonCommon_fst, hget]
    rw [cdncDecision_congr (st.get i) _ false binding sec.isNone value (by simp) (by simp)]
    exact hcmp
  have hstate := compareDefinedNonCommon_conflict_state cfg
    (st.setSym i (mergeAttrs cfg (getVisibility stOther) false (usedInRegularObjOf file)
      (st.get i))) i false binding sec.isNone value hfst
  rw [hfst, hstate]
  norm_num
  rw [hget, hm2body]
  simp only [reportDuplicateSec_eq]
  unfold printDiag
  split_ifs with hallow <;>
    simp [hget, hm2body, hb]

/-- Fixture for the C7 counterexample: allow-multiple-definitions mode. -/
def c7cfg : Config := { allowMultipleDefinition := true }

/-- Fixture: one regular object strongly defines `main` with default
visibility. -/
def c7st1 : LinkState :=
  (addRegular c7cfg {} "main" 0 0 0 1 STB_GLOBAL
    (some ⟨1, some ⟨1, FileKind.object⟩⟩) (some ⟨1, FileKind.object⟩)).2

/-- Fixture: a second regular object strongly defines `main` again, with
hidden visibility (`st_other = 2`), in permissive mode — a losing
conflicting contribution. -/
def c7st2 : LinkState :=
  (addRegular c7cfg c7st1 "main" 2 0 0 1 STB_GLOBAL
    (some ⟨2, some ⟨2, FileKind.object⟩⟩) (some ⟨2, FileKind.object⟩)).2

/-- Counterexample to C7 as stated: in permissive mode the losing
conflicting contribution keeps the first-inserted body and is reported
as a warning, but it does mutate the store — the slot's visibility is
merged to the incoming hidden visibility — so "the store is not mutated
by the losing contribution" is false on the code. -/
theorem C7_counterexample :
    (c7st2.get 0).body = (c7st1.get 0).body ∧
    c7st2.warnings ≠ c7st1.warnings ∧
    (c7st1.get 0).visibility = 0 ∧
    (c7st2.get 0).visibility = 2 := by decide

/-! ### C5 — version-script precedence -/

/-- Out-of-range slot writes are no-ops. -/
theorem LinkState.setSym_oob (st : LinkState) (i : Nat) (s : Symbol)
    (h : st.symVector.length ≤ i) : st.setSym i s = st := by
  unfold LinkState.setSym
  rw [List.set_eq_of_length_le h]

/-- Two states with the same slot count and the same slot bodies: all the
version matchers read only these, and the wildcard phase only rewrites
version ids. -/
def BodiesEq (st st' : LinkState) : Prop :=
  st'.symVector.length = st.symVector.length ∧
  ∀ j, (st'.get j).body = (st.get j).body

theorem bodiesEq_refl (st : LinkState) : BodiesEq st st := ⟨rfl, fun _ => rfl⟩

theorem bodiesEq_trans {a b c : LinkState} (h1 : BodiesEq a b) (h2 : BodiesEq b c) :
    BodiesEq a c :=
  ⟨h2.1.trans h1.1, fun j => (h2.2 j).trans (h1.2 j)⟩

theorem stampW_val (cfg : Config) (st : LinkState) (j vid i : Nat) :
    ((stampWildcardVersion cfg st j vid).get i).versionId =
      if j = i ∧ (st.get i).versionId = cfg.defaultSymbolVersion ∧
          i < st.symVector.length then vid
      else (st.get i).versionId := by
  unfold stampWildcardVersion
  by_cases hj : j = i
  · subst hj
    by_cases hd : (st.get j).versionId = cfg.defaultSymbolVersion
    · by_cases hlt : j < st.symVector.length
      · rw [if_pos hd, LinkState.get_setSym_self st j _ hlt]
        simp [hd, hlt]
      · rw [if_pos hd, LinkState.setSym_oob st j _ (by omega)]
        simp [hd, hlt]
    · rw [if_neg hd]
      simp [hd]
  · by_cases hd : (st.get j).versionId = cfg.defaultSymbolVersion
    · rw [if_pos hd, LinkState.get_setSym_ne st j i _ hj]
      simp [hj]
    · rw [if_neg hd]
      simp [hj]

theorem stampW_bodiesEq (cfg : Config) (st : LinkState) (j vid : Nat) :
    BodiesEq st (stampWildcardVersion cfg st j vid) := by
  unfold stampWildcardVersion
  split_ifs
  · refine ⟨LinkState.length_setSym st j _, fun k => ?_⟩
    by_cases hk : j = k
    · subst hk
      by_cases hlt : j < st.symVector.length
      · rw [LinkState.get_setSym_self st j _ hlt]
      · rw [LinkState.setSym_oob st j _ (by omega)]
    · rw [LinkState.get_setSym_ne st j k _ hk]
  · exact bodiesEq_refl st

theorem stampW_frame (cfg : Config) (st : LinkState) (j vid : Nat) :
    (stampWildcardVersion cfg st j vid).symtab = st.symtab ∧
    (stampWildcardVersion cfg st j vid).errors = st.errors ∧
    (stampWildcardVersion cfg st j vid).warnings = st.warnings := by
  unfold stampWildcardVersion
  split_ifs <;> exact ⟨rfl, rfl, rfl⟩

theorem wildFold_val (cfg : Config) (vid : Nat) (l : List Nat) (st : LinkState) (i : Nat)
    (hl : ∀ j ∈ l, j < st.symVector.length) :
    (((l.foldl (fun st j => stampWildcardVersion cfg st j vid) st)).get i).versionId =
      if i ∈ l ∧ (st.get i).versionId = cfg.defaultSymbolVersion then vid
      else (st.get i).versionId := by
  induction l generalizing st with
  | nil => simp
  | cons j rest ih =>
    simp only [List.foldl_cons]
    have hlen : (stampWildcardVersion cfg st j vid).symVector.length =
        st.symVector.length := (stampW_bodiesEq cfg st j vid).1
    have hrest : ∀ k ∈ rest, k < (stampWildcardVersion cfg st j vid).symVector.length := by
      intro k hk
      rw [hlen]
      exact hl k (List.mem_cons_of_mem _ hk)
    rw [ih _ hrest, stampW_val]
    have hjlen : j < st.symVector.length := hl j (List.mem_cons_self j rest)
    by_cases hji : j = i <;>
      by_cases hd : (st.get i).versionId = cfg.defaultSymbolVersion <;>
        by_cases hir : i ∈ rest <;>
          by_cases hvd : vid = cfg.defaultSymbolVersion <;>
            simp_all [List.mem_cons]
    rw [if_neg (fun h => hji h.symm)]

theorem wildFold_bodiesEq (cfg : Config) (vid : Nat) (l : List Nat) (st : LinkState) :
    BodiesEq st (l.foldl (fun st j => stampWildcardVersion cfg st j vid) st) := by
  induction l generalizing st with
  | nil => exact bodiesEq_refl st
  | cons j rest ih =>
    exact bodiesEq_trans (stampW_bodiesEq cfg st j vid) (ih _)

theorem findAllByVersion_sub (cfg : Config) (st : LinkState) (ver : SymbolVersion) :
    ∀ j ∈ findAllByVersion cfg st ver, j < st.symVector.length := by
  unfold findAllByVersion
  split_ifs <;>
    intro j hj <;>
    simp only [List.mem_filter] at hj <;>
    exact List.mem_range.mp hj.1

theorem findAllByVersion_congr (cfg : Config) (ver : SymbolVersion)
    {st st' : LinkState} (h : BodiesEq st st') :
    findAllByVersion cfg st' ver = findAllByVersion cfg st ver := by
  unfold findAllByVersion
  rw [h.1]
  split_ifs <;>
    (apply List.filter_congr
     intro j hj
     unfold matchesBody
     rw [h.2 j])

theorem assignW_val (cfg : Config) (st : LinkState) (ver : SymbolVersion)
    (vid i : Nat) :
    ((assignWildcardVersion cfg st ver vid).get i).versionId =
      if ver.hasWildcard = true ∧ i ∈ findAllByVersion cfg st ver ∧
          (st.get i).versionId = cfg.defaultSymbolVersion then vid
      else (st.get i).versionId := by
  unfold assignWildcardVersion
  by_cases hw : ver.hasWildcard
  · simp only [hw, Bool.not_true, Bool.false_eq_true, if_false]
    rw [wildFold_val cfg vid _ st i (findAllByVersion_sub cfg st ver)]
    simp [hw]
  · simp [hw]

theorem assignW_bodiesEq (cfg : Config) (st : LinkState) (ver : SymbolVersion)
    (vid : Nat) : BodiesEq st (assignWildcardVersion cfg st ver vid) := by
  unfold assignWildcardVersion
  split_ifs
  · exact bodiesEq_refl st
  · exact wildFold_bodiesEq cfg vid _ st

/-- Does some wildcard pattern of this version definition match the slot
at this index (over defined bodies, in the sense of `findAllByVersion`)? -/
def defWildMatches (cfg : Config) (st : LinkState) (d : VersionDefinition)
    (i : Nat) : Bool :=
  d.globals.any (fun ver => ver.hasWildcard && (findAllByVersion cfg st ver).contains i)

/-- All wildcard assignments of one version definition (the inner loop of
the wildcard phase). -/
def applyDefWildcards (cfg : Config) (d : VersionDefinition) (st : LinkState) :
    LinkState :=
  d.globals.foldl (fun st ver => assignWildcardVersion cfg st ver d.id) st

/-- The id of the last-declared version definition with a wildcard
pattern matching slot `i`, scanning the definitions in declaration
order. -/
def lastWildcardMatchId (cfg : Config) (st : LinkState)
    (defs : List VersionDefinition) (i : Nat) : Option Nat :=
  defs.foldl (fun acc d => if defWildMatches cfg st d i then some d.id else acc) none

theorem any_congr' {α} (l : List α) (p q : α → Bool) (h : ∀ a, p a = q a) :
    l.any p = l.any q := by
  induction l with
  | nil => rfl
  | cons x xs ih => simp [List.any_cons, h x, ih]

theorem find?_congr {α} (l : List α) (p q : α → Bool) (h : ∀ a, p a = q a) :
    l.find? p = l.find? q := by
  induction l with
  | nil => rfl
  | cons x xs ih =>
    by_cases hx : p x = true
    · rw [List.find?_cons_of_pos _ hx, List.find?_cons_of_pos _ ((h x) ▸ hx)]
    · rw [List.find?_cons_of_neg _ hx, List.find?_cons_of_neg _ ((h x) ▸ hx), ih]

theorem defFold_val (cfg : Config) (vid : Nat) (gl : List SymbolVersion)
    (st : LinkState) (i : Nat) :
    (((gl.foldl (fun st ver => assignWildcardVersion cfg st ver vid) st)).get i).versionId =
      if (gl.any (fun ver => ver.hasWildcard &&
            (findAllByVersion cfg st ver).contains i)) = true ∧
          (st.get i).versionId = cfg.defaultSymbolVersion then vid
      else (st.get i).versionId := by
  induction gl generalizing st with
  | nil => simp
  | cons ver rest ih =>
    simp only [List.foldl_cons]
    have hbe := assignW_bodiesEq cfg st ver vid
    have hstab : ∀ v', findAllByVersion cfg (assignWildcardVersion cfg st ver vid) v' =
        findAllByVersion cfg st v' := fun v' => findAllByVersion_congr cfg v' hbe
    rw [ih _]
    simp only [hstab]
    rw [assignW_val]
    by_cases hw : ver.hasWildcard = true <;>
      by_cases hm : i ∈ findAllByVersion cfg st ver <;>
        by_cases hd : (st.get i).versionId = cfg.defaultSymbolVersion <;>
          by_cases hr : (rest.any (fun v' => v'.hasWildcard &&
            (findAllByVersion cfg st v').contains i)) = true <;>
            by_cases hvd : vid = cfg.defaultSymbolVersion <;>
              simp_all [List.any_cons]

theorem defFold_bodiesEq (cfg : Config) (vid : Nat) (gl : List SymbolVersion)
    (st : LinkState) :
    BodiesEq st (gl.foldl (fun st ver => assignWildcardVersion cfg st ver vid) st) := by
  induction gl generalizing st with
  | nil => exact bodiesEq_refl st
  | cons ver rest ih =>
    exact bodiesEq_trans (assignW_bodiesEq cfg st ver vid) (ih _)

theorem applyDefW_val (cfg : Config) (d : VersionDefinition) (st : LinkState) (i : Nat) :
    ((applyDefWildcards cfg d st).get i).versionId =
      if defWildMatches cfg st d i = true ∧
          (st.get i).versionId = cfg.defaultSymbolVersion then d.id
      else (st.get i).versionId := by
  unfold applyDefWildcards defWildMatches
  exact defFold_val cfg d.id d.globals st i

theorem applyDefW_bodiesEq (cfg : Config) (d : VersionDefinition) (st : LinkState) :
    BodiesEq st (applyDefWildcards cfg d st) :=
  defFold_bodiesEq cfg d.id d.globals st

/-- The wildcard phase over an explicit definition list. -/
def wildPhaseList (cfg : Config) (L : List VersionDefinition) (st : LinkState) :
    LinkState :=
  L.foldl (fun st v => applyDefWildcards cfg v st) st

theorem wildcardVersionPhase_eq_list (cfg : Config) (st : LinkState) :
    wildcardVersionPhase cfg st = wildPhaseList cfg cfg.versionDefinitions.reverse st := rfl

theorem wildPhaseList_bodiesEq (cfg : Config) (L : List VersionDefinition)
    (st : LinkState) : BodiesEq st (wildPhaseList cfg L st) := by
  induction L generalizing st with
  | nil => exact bodiesEq_refl st
  | cons d rest ih =>
    exact bodiesEq_trans (applyDefW_bodiesEq cfg d st) (ih _)

theorem wildPhaseList_preserve (cfg : Config) (L : List VersionDefinition)
    (st : LinkState) (i : Nat)
    (h : (st.get i).versionId ≠ cfg.defaultSymbolVersion) :
    ((wildPhaseList cfg L st).get i).versionId = (st.get i).versionId := by
  induction L generalizing st with
  | nil => rfl
  | cons d rest ih =>
    show ((wildPhaseList cfg rest (applyDefWildcards cfg d st)).get i).versionId = _
    have hstep : ((applyDefWildcards cfg d st).get i).versionId = (st.get i).versionId := by
      rw [applyDefW_val]
      simp [h]
    rw [ih _ (by rw [hstep]; exact h), hstep]

theorem wildPhaseList_val (cfg : Config) (L : List VersionDefinition)
    (st : LinkState) (i : Nat)
    (hids : ∀ d ∈ L, d.id ≠ cfg.defaultSymbolVersion)
    (hd : (st.get i).versionId = cfg.defaultSymbolVersion) :
    ((wildPhaseList cfg L st).get i).versionId =
      ((L.find? (fun d => defWildMatches cfg st d i)).map (·.id)).getD
        cfg.defaultSymbolVersion := by
  induction L generalizing st with
  | nil => simpa using hd
  | cons d rest ih =>
    show ((wildPhaseList cfg rest (applyDefWildcards cfg d st)).get i).versionId = _
    by_cases hm : defWildMatches cfg st d i = true
    · have hval : ((applyDefWildcards cfg d st).get i).versionId = d.id := by
        rw [applyDefW_val]
        simp [hm, hd]
      rw [wildPhaseList_preserve cfg rest _ i
        (by rw [hval]; exact hids d (List.mem_cons_self d rest)), hval,
        show List.find? (fun d => defWildMatches cfg st d i) (d :: rest) = some d from
          List.find?_cons_of_pos _ hm]
      rfl
    · have hval : ((applyDefWildcards cfg d st).get i).versionId =
          (st.get i).versionId := by
        rw [applyDefW_val]
        simp [hm]
      have hbe := applyDefW_bodiesEq cfg d st
      have hstab : ∀ d', defWildMatches cfg (applyDefWildcards cfg d st) d' i =
          defWildMatches cfg st d' i := by
        intro d'
        unfold defWildMatches
        apply any_congr'
        intro v'
        rw [findAllByVersion_congr cfg v' hbe]
      rw [ih _ (fun d' hd' => hids d' (List.mem_cons_of_mem _ hd')) (by rw [hval]; exact hd)]
      rw [find?_congr _ _ _ hstab,
        show List.find? (fun d => defWildMatches cfg st d i) (d :: rest) =
            List.find? (fun d => defWildMatches cfg st d i) rest from
          List.find?_cons_of_neg _ (by simpa using hm)]

theorem lastWildcardMatchId_acc (cfg : Config) (st : LinkState) (i : Nat)
    (L : List VersionDefinition) (acc : Option Nat) :
    L.foldl (fun acc d => if defWildMatches cfg st d i then some d.id else acc) acc =
      ((L.reverse.find? (fun d => defWildMatches cfg st d i)).map (·.id)).elim acc some := by
  induction L generalizing acc with
  | nil => rfl
  | cons d rest ih =>
    simp only [List.foldl_cons, List.reverse_cons]
    rw [ih]
    rcases hfind : rest.reverse.find? (fun d => defWildMatches cfg st d i) with _ | x
    · rw [List.find?_append, hfind]
      by_cases hm : defWildMatches cfg st d i = true <;> simp [hm]
    · rw [List.find?_append, hfind]
      simp

/-- C5: with the anonymous version block empty and no definition id equal
to the default version, version-script processing runs every exact-name
assignment before any wildcard assignment (the scan is the wildcard phase
applied after the exact phase); a wildcard writes only to symbols whose
version is still the default, so a symbol versioned by the exact phase is
never overwritten; and a symbol still unversioned after the exact phase
ends with the id of the last-declared version definition whose wildcard
patterns match it (the wildcard phase visits definitions in reverse
declaration order). -/
theorem C5_version_precedence (cfg : Config) (st : LinkState) (i : Nat)
    (hanonG : cfg.versionScriptGlobals = [])
    (hanonL : cfg.versionScriptLocals = [])
    (hne : cfg.versionDefinitions ≠ [])
    (hids : ∀ d ∈ cfg.versionDefinitions, d.id ≠ cfg.defaultSymbolVersion) :
    scanVersionScript cfg st = wildcardVersionPhase cfg (exactVersionPhase cfg st) ∧
    (((exactVersionPhase cfg st).get i).versionId ≠ cfg.defaultSymbolVersion →
      ((scanVersionScript cfg st).get i).versionId =
        ((exactVersionPhase cfg st).get i).versionId) ∧
    (((exactVersionPhase cfg st).get i).versionId = cfg.defaultSymbolVersion →
      ((scanVersionScript cfg st).get i).versionId =
        (lastWildcardMatchId cfg (exactVersionPhase cfg st) cfg.versionDefinitions i).getD
          cfg.defaultSymbolVersion) := by
  have hemp : cfg.versionDefinitions.isEmpty = false := by
    simpa [List.isEmpty_iff] using hne
  have hanon : handleAnonymousVersion cfg st = st := by
    simp [handleAnonymousVersion, hanonG, hanonL]
  have hscan : scanVersionScript cfg st =
      wildcardVersionPhase cfg (exactVersionPhase cfg st) := by
    simp [scanVersionScript, hemp, hanon, parseSymbolVersionPass]
  refine ⟨hscan, fun hnd => ?_, fun hd => ?_⟩
  · rw [hscan, wildcardVersionPhase_eq_list]
    exact wildPhaseList_preserve cfg _ _ i hnd
  · rw [hscan, wildcardVersionPhase_eq_list]
    rw [wildPhaseList_val cfg _ _ i
      (fun d hd' => hids d (by simpa using hd')) hd]
    unfold lastWildcardMatchId
    rw [lastWildcardMatchId_acc]
    rcases hfind : (cfg.versionDefinitions.reverse.find?
        (fun d => defWildMatches cfg (exactVersionPhase cfg st) d i)) with _ | x <;>
      simp [hfind]

/-! ### Concrete witness fixtures -/

/-- A strong regular absolute definition of `f` in slot 0. -/
def wRegSym : Symbol :=
  { binding := STB_GLOBAL, body := some (SymbolBody.regular "f" false 0 0 0 0 none none) }

/-- A one-symbol table holding `wRegSym` under the name `f`. -/
def wStReg : LinkState :=
  { symtab := [("f", ⟨0, false⟩)], symVector := [wRegSym] }

/-- A weak slot holding a lazy archive body for `l` with a fetchable
member. -/
def wStLazy : LinkState :=
  { symtab := [("l", ⟨0, false⟩)]
    symVector := [{ body := some (SymbolBody.lazyArchive "l" ⟨5, FileKind.archive⟩ 0 (some 7)) }] }

/-- A weak slot holding an undefined body for `u`. -/
def wStUndef : LinkState :=
  { symtab := [("u", ⟨0, false⟩)]
    symVector := [{ body := some (SymbolBody.undefined "u" false 0 0 none) }] }

/-- A strong slot holding a TLS-typed regular definition of `t`. -/
def wStTls : LinkState :=
  { symtab := [("t", ⟨0, false⟩)]
    symVector := [{ binding := STB_GLOBAL
                    body := some (SymbolBody.regular "t" false 0 STT_TLS 0 0 none none) }] }

/-- A configuration with one version definition of id 2. -/
def wVCfg : Config :=
  { versionDefinitions := [⟨"v1", 2, [⟨"foo", false, false⟩]⟩] }

/-- Witness for C1 at a concrete strong regular slot and a strong
incoming contribution. -/
theorem C1_nonCommon_precedence_table_witness :
    resolutionOfInt (compareDefinedNonCommon {} wStReg 0 false STB_GLOBAL false 0).1 =
      specCompareNonCommon (wStReg.get 0)
        (SymbolBody.regular "f" false 0 0 0 0 none none) false STB_GLOBAL false 0 :=
  C1_nonCommon_precedence_table {} wStReg 0 false STB_GLOBAL false 0
    (SymbolBody.regular "f" false 0 0 0 0 none none) rfl (Or.inl rfl) (Or.inl rfl)

/-- Witness for C2: inserting `foo` twice into the empty table. -/
theorem C2_insert_idempotent_witness :
    (insertName {} (insertName {} ({} : LinkState) "foo").2.2 "foo").2.1 = false ∧
    ((insertName {} ({} : LinkState) "foo").2.2.get
      (insertName {} ({} : LinkState) "foo").1).binding = STB_WEAK :=
  ⟨(C2_insert_idempotent {} {} "foo").2.1,
   ((C2_insert_idempotent {} {} "foo").2.2.2.1 rfl).1⟩

/-- Witness for C3: the spec's ratchet instance — commons of (size 8,
align 4) then (size 16, align 8) end as one common of size 16, align 8. -/
theorem C3_common_ratchet_witness :
    ((addCommon {} (addCommon {} ({} : LinkState) "c" 8 4 STB_GLOBAL 0 0 none).2 "c"
        16 8 STB_GLOBAL 0 0 none).2.get 0).body =
      some (SymbolBody.common "c" 16 8 0 0 none) := by
  have h := (C3_common_ratchet {} {} "c" 8 4 0 16 8 0 0 none none rfl).2.1
  simpa using h

/-- Witness for C4 at concrete lazy and undefined slots. -/
theorem C4_weak_lazy_never_fetches_witness :
    (addUndefined {} wStLazy "l" false STB_WEAK 0 0 false none).2.fetched =
      wStLazy.fetched ∧
    (addLazyArchive {} wStUndef ⟨5, FileKind.archive⟩ "u" (some 7)).fetched =
      wStUndef.fetched :=
  have h := C4_weak_lazy_never_fetches {} wStLazy wStUndef "l" "u" 0 0 false false
    (SymbolBody.lazyArchive "l" ⟨5, FileKind.archive⟩ 0 (some 7))
    (SymbolBody.undefined "u" false 0 0 none) false 0 0 false none
    ⟨5, FileKind.archive⟩ (some 7) (some 9) STB_GLOBAL
    rfl (by decide) rfl rfl rfl (by decide) rfl rfl (by decide)
  ⟨(h.1 rfl).1, (h.2.2.1 rfl).1⟩

/-- Witness for C5 at a concrete configuration with one version
definition. -/
theorem C5_version_precedence_witness :
    scanVersionScript wVCfg {} =
      wildcardVersionPhase wVCfg (exactVersionPhase wVCfg {}) :=
  (C5_version_precedence wVCfg {} 0 rfl rfl (by decide) (by decide)).1

/-- Witness for C6: a shared contribution neither overrides the regular
definition of `f` nor fails to install into an empty slot. -/
theorem C6_shared_never_overrides_witness :
    ((addShared {} wStReg ⟨3, FileKind.sharedLib⟩ "f" 0 0 none).get 0).body =
      some (SymbolBody.regular "f" false 0 0 0 0 none none) ∧
    ((addShared {} ({} : LinkState) ⟨3, FileKind.sharedLib⟩ "f" 0 0 none).get 0).body =
      some (SymbolBody.sharedSym "f" ⟨3, FileKind.sharedLib⟩ 0 0 none) :=
  have h := C6_shared_never_overrides {} wStReg {} ⟨3, FileKind.sharedLib⟩ "f" 0 0 none
    0 false (SymbolBody.regular "f" false 0 0 0 0 none none) rfl (by decide) rfl rfl
  ⟨h.1 rfl, by simpa using h.2.2.2⟩

/-- Witness for C7 (amended): a second strong regular definition of `f`
conflicts and the first body is kept. -/
theorem C7_duplicate_diagnostics_witness :
    ((addRegular {} wStReg "f" 0 0 0 0 STB_GLOBAL
        (some ⟨2, some ⟨2, FileKind.object⟩⟩) (some ⟨2, FileKind.object⟩)).2.get 0).body =
      some (SymbolBody.regular "f" false 0 0 0 0 none none) := by
  have h := (C7_duplicate_diagnostics {} wStReg "f" 0 0 0 STB_GLOBAL
    (some ⟨2, some ⟨2, FileKind.object⟩⟩) (some ⟨2, FileKind.object⟩) 0 false
    (SymbolBody.regular "f" false 0 0 0 0 none none) rfl (by decide) rfl (by decide)).1
  simpa using h

/-- Witness for C8: a non-TLS contribution to the TLS-typed `t` records
the mismatch as a hard error. -/
theorem C8_tls_mismatch_always_fatal_witness :
    (insertAttrs {} wStTls "t" 0 0 false none).2.2.errors =
      wStTls.errors ++ [Diag.tlsMismatch "t" none none] :=
  (C8_tls_mismatch_always_fatal {} wStTls "t" 0 0 0 0 0 STB_GLOBAL false none none
    0 false (SymbolBody.regular "t" false 0 STT_TLS 0 0 none none)
    rfl rfl (by decide) (by decide)).1

/-- Witness for C9: wrapping `f` moves its body to `__real_f`. -/
theorem C9_wrap_transform_witness :
    ((wrap {} wStReg "f").get wStReg.symVector.length).body = (wStReg.get 0).body :=
  (C9_wrap_transform {} wStReg "f" 0 false rfl (by decide) rfl rfl).2.2.1

/-- Witness for C10: late lazy contributions on the defined `f` are
no-ops. -/
theorem C10_late_lazy_discarded_witness :
    addLazyArchive {} wStReg ⟨5, FileKind.archive⟩ "f" (some 7) = wStReg ∧
    addLazyObject {} wStReg "f" (some 9) = wStReg :=
  C10_late_lazy_discarded {} wStReg "f" ⟨5, FileKind.archive⟩ (some 7) (some 9) 0 false
    (SymbolBody.regular "f" false 0 0 0 0 none none) rfl rfl rfl

end ElfLinker
